import Mathlib

/-!
Verification development for the moviefrost catalog backend.

The catalog engine of `Controllers/MoviesController.js` and the enrichment
caches of `utils/externalRatingsService.js` / the TMDb credits service are
shallowly embedded here.  Modelling conventions:

* JavaScript strings are `List Char` (`JsStr`); `String(x).trim()` etc. are
  embedded explicitly.  `toLowerCase` is modelled on the ASCII range (all
  characters the claims exercise), other characters pass through unchanged,
  matching JS for those characters.
* A MongoDB document is a `Movie` record; the collection is a `List Movie`.
  `find(filter).sort(k).skip(s).limit(n)` is embedded as a stable sort of
  `db.filter f` by the compound key `k`, then `drop s` and `take n`.  The
  stable sort is `List.insertionSort` (extensionally equal to any stable
  sort by a total preorder, and it evaluates by kernel reduction).  Missing
  numeric fields (`orderIndex: null/absent`) are `Option` and sort before
  all numbers in ascending order, as BSON null does.  The boolean flags
  `latest` and `previousHit` are `Bool` with "missing ≡ false": the filters
  `{previousHit: {$ne: true}}` / `{previousHit: true}` and the claims only
  distinguish `true` from not-`true`.
* `bulkWrite` with `updateOne` on `_id` filters is applied as an in-order
  fold of single-document updates; `_id` is unique in MongoDB, which the
  relevant theorems carry as a `Nodup` hypothesis on the id column.
* Timestamps (`Date.now()`, `new Date()`) are an `Int` parameter `now`
  (milliseconds); TTLs are `Int` days.
-/

namespace MovieFrost

abbrev JsStr := List Char

/-- Cached IMDb block of `movieDoc.externalRatings.imdb`. -/
structure ExtImdb where
  rating : Option ℚ
  votes : Option ℚ
  url : JsStr
  deriving Repr, DecidableEq

/-- Cached Rotten Tomatoes block of `movieDoc.externalRatings.rottenTomatoes`. -/
structure ExtRT where
  rating : Option ℚ
  url : JsStr
  deriving Repr, DecidableEq

/-- `movieDoc.externalRatings`. -/
structure ExtRatings where
  imdb : ExtImdb
  rottenTomatoes : ExtRT
  deriving Repr, DecidableEq

/-- A catalog document (the fields the specified subsystem reads or writes). -/
structure Movie where
  id : JsStr
  name : JsStr
  year : Option Int
  typ : JsStr
  latest : Bool
  previousHit : Bool
  orderIndex : Option Int
  createdAt : Int
  isPublished : Option Bool
  slug : JsStr
  viewCount : Option Nat
  imdbId : JsStr
  externalRatings : Option ExtRatings
  externalRatingsUpdatedAt : Option Int
  casts : List JsStr
  director : JsStr
  tmdbId : Option Int
  tmdbType : JsStr
  tmdbCreditsUpdatedAt : Option Int
  deriving Repr, DecidableEq

/-- `const REORDER_PAGE_LIMIT = 50`. -/
def REORDER_PAGE_LIMIT : Nat := 50

/-! ### Compound sort keys

Each Mongo compound sort is embedded as an explicit Bool comparator
(lexicographic: descending components flip the operands).  For order
reasoning each comparator is characterised by a lexicographic key into
`Prod.Lex`-ordered tuples. -/

/-- Strict ascending BSON comparison of a nullable integer field:
null/missing sorts before every number. -/
def ltOptInt (a b : Option Int) : Bool :=
  match a, b with
  | none, none => false
  | none, some _ => true
  | some _, none => false
  | some x, some y => decide (x < y)

/-- Comparator of `{ latest: -1, orderIndex: 1, createdAt: -1 }`
(normal-partition listing sort, `sortLatest`). -/
def leNormal (a b : Movie) : Bool :=
  if a.latest = b.latest then
    if a.orderIndex = b.orderIndex then decide (b.createdAt ≤ a.createdAt)
    else ltOptInt a.orderIndex b.orderIndex
  else a.latest && !b.latest

/-- Comparator of `{ orderIndex: 1, createdAt: -1 }`
(previous-hit partition listing sort, `sortPrevHits`). -/
def lePrev (a b : Movie) : Bool :=
  if a.orderIndex = b.orderIndex then decide (b.createdAt ≤ a.createdAt)
  else ltOptInt a.orderIndex b.orderIndex

/-- Comparator of `{ latest: -1, previousHit: 1, createdAt: -1 }`
(`ensureOrderIndexes` repair sort). -/
def leRepair (a b : Movie) : Bool :=
  if a.latest = b.latest then
    if a.previousHit = b.previousHit then decide (b.createdAt ≤ a.createdAt)
    else !a.previousHit && b.previousHit
  else a.latest && !b.latest

/-- Comparator of `{ latest: -1, previousHit: 1, orderIndex: 1 }`
(`moveMoviesToPage` global ordering sort). -/
def leMove (a b : Movie) : Bool :=
  if a.latest = b.latest then
    if a.previousHit = b.previousHit then
      if a.orderIndex = b.orderIndex then true
      else ltOptInt a.orderIndex b.orderIndex
    else !a.previousHit && b.previousHit
  else a.latest && !b.latest

/-- Key of `orderIndex` ascending with null/missing first. -/
def oiKey (o : Option Int) : Lex (Bool × Int) := toLex (o.isSome, o.getD 0)

/-- Key characterising `leNormal`. -/
def normalKey (m : Movie) : Lex (Bool × Lex ((Lex (Bool × Int)) × Int)) :=
  toLex (!m.latest, toLex (oiKey m.orderIndex, -m.createdAt))

/-- Key characterising `lePrev`. -/
def prevKey (m : Movie) : Lex ((Lex (Bool × Int)) × Int) :=
  toLex (oiKey m.orderIndex, -m.createdAt)

/-- Key characterising `leRepair`. -/
def repairKey (m : Movie) : Lex (Bool × Lex (Bool × Int)) :=
  toLex (!m.latest, toLex (m.previousHit, -m.createdAt))

/-- Key characterising `leMove`. -/
def moveKey (m : Movie) : Lex (Bool × Lex (Bool × (Lex (Bool × Int)))) :=
  toLex (!m.latest, toLex (m.previousHit, oiKey m.orderIndex))

theorem oiKey_inj {a b : Option Int} (h : oiKey a = oiKey b) : a = b := by
  rcases a with _ | x <;> rcases b with _ | y <;>
    simp_all [oiKey, Prod.ext_iff]

theorem ltOptInt_iff (a b : Option Int) :
    ltOptInt a b = true ↔ oiKey a < oiKey b := by
  rcases a with _ | x <;> rcases b with _ | y <;>
    simp [ltOptInt, oiKey, Prod.Lex.lt_iff]

theorem oiKey_le_iff (a b : Option Int) :
    oiKey a ≤ oiKey b ↔ (ltOptInt a b = true ∨ a = b) := by
  rw [le_iff_lt_or_eq, ltOptInt_iff]
  constructor
  · rintro (h | h)
    · exact Or.inl h
    · exact Or.inr (oiKey_inj h)
  · rintro (h | rfl)
    · exact Or.inl h
    · exact Or.inr rfl

theorem bool_desc_lt_iff (a b : Bool) : (a && !b) = true ↔ (!a) < (!b) := by
  rcases a <;> rcases b <;> simp

theorem bool_asc_lt_iff (a b : Bool) : (!a && b) = true ↔ a < b := by
  rcases a <;> rcases b <;> simp

theorem bool_not_eq_iff (a b : Bool) : (!a) = (!b) ↔ a = b := by
  rcases a <;> rcases b <;> simp

theorem bool_desc_lt_and_iff (a b : Bool) :
    (a = true ∧ b = false) ↔ (!a) < (!b) := by
  rcases a <;> rcases b <;> simp

theorem bool_asc_lt_and_iff (a b : Bool) :
    (a = false ∧ b = true) ↔ a < b := by
  rcases a <;> rcases b <;> simp

theorem normalKey_le_iff (a b : Movie) : normalKey a ≤ normalKey b ↔
    ((!a.latest) < (!b.latest) ∨ (a.latest = b.latest ∧
      (oiKey a.orderIndex < oiKey b.orderIndex ∨
        (a.orderIndex = b.orderIndex ∧ b.createdAt ≤ a.createdAt)))) := by
  unfold normalKey
  rw [Prod.Lex.le_iff, Prod.Lex.le_iff]
  constructor
  · rintro (h | ⟨h1, h2 | ⟨h3, h4⟩⟩)
    · exact Or.inl h
    · exact Or.inr ⟨(bool_not_eq_iff _ _).mp h1, Or.inl h2⟩
    · exact Or.inr ⟨(bool_not_eq_iff _ _).mp h1,
        Or.inr ⟨oiKey_inj h3, by omega⟩⟩
  · rintro (h | ⟨h1, h2 | ⟨h3, h4⟩⟩)
    · exact Or.inl h
    · exact Or.inr ⟨(bool_not_eq_iff _ _).mpr h1, Or.inl h2⟩
    · exact Or.inr ⟨(bool_not_eq_iff _ _).mpr h1,
        Or.inr ⟨by rw [h3], by omega⟩⟩

theorem prevKey_le_iff (a b : Movie) : prevKey a ≤ prevKey b ↔
    (oiKey a.orderIndex < oiKey b.orderIndex ∨
      (a.orderIndex = b.orderIndex ∧ b.createdAt ≤ a.createdAt)) := by
  unfold prevKey
  rw [Prod.Lex.le_iff]
  constructor
  · rintro (h | ⟨h1, h2⟩)
    · exact Or.inl h
    · exact Or.inr ⟨oiKey_inj h1, by omega⟩
  · rintro (h | ⟨h1, h2⟩)
    · exact Or.inl h
    · exact Or.inr ⟨by rw [h1], by omega⟩

theorem repairKey_le_iff (a b : Movie) : repairKey a ≤ repairKey b ↔
    ((!a.latest) < (!b.latest) ∨ (a.latest = b.latest ∧
      (a.previousHit < b.previousHit ∨
        (a.previousHit = b.previousHit ∧ b.createdAt ≤ a.createdAt)))) := by
  unfold repairKey
  rw [Prod.Lex.le_iff, Prod.Lex.le_iff]
  constructor
  · rintro (h | ⟨h1, h2 | ⟨h3, h4⟩⟩)
    · exact Or.inl h
    · exact Or.inr ⟨(bool_not_eq_iff _ _).mp h1, Or.inl h2⟩
    · exact Or.inr ⟨(bool_not_eq_iff _ _).mp h1, Or.inr ⟨h3, by omega⟩⟩
  · rintro (h | ⟨h1, h2 | ⟨h3, h4⟩⟩)
    · exact Or.inl h
    · exact Or.inr ⟨(bool_not_eq_iff _ _).mpr h1, Or.inl h2⟩
    · exact Or.inr ⟨(bool_not_eq_iff _ _).mpr h1, Or.inr ⟨h3, by omega⟩⟩

theorem moveKey_le_iff (a b : Movie) : moveKey a ≤ moveKey b ↔
    ((!a.latest) < (!b.latest) ∨ (a.latest = b.latest ∧
      (a.previousHit < b.previousHit ∨
        (a.previousHit = b.previousHit ∧
          oiKey a.orderIndex ≤ oiKey b.orderIndex)))) := by
  unfold moveKey
  rw [Prod.Lex.le_iff, Prod.Lex.le_iff]
  constructor
  · rintro (h | ⟨h1, h2 | ⟨h3, h4⟩⟩)
    · exact Or.inl h
    · exact Or.inr ⟨(bool_not_eq_iff _ _).mp h1, Or.inl h2⟩
    · exact Or.inr ⟨(bool_not_eq_iff _ _).mp h1, Or.inr ⟨h3, h4⟩⟩
  · rintro (h | ⟨h1, h2 | ⟨h3, h4⟩⟩)
    · exact Or.inl h
    · exact Or.inr ⟨(bool_not_eq_iff _ _).mpr h1, Or.inl h2⟩
    · exact Or.inr ⟨(bool_not_eq_iff _ _).mpr h1, Or.inr ⟨h3, h4⟩⟩

theorem leNormal_iff (a b : Movie) :
    leNormal a b = true ↔ normalKey a ≤ normalKey b := by
  rw [normalKey_le_iff]
  unfold leNormal
  by_cases h1 : a.latest = b.latest
  · by_cases h2 : a.orderIndex = b.orderIndex
    · simp [h1, h2, lt_self_iff_false]
    · simp [h1, h2, ltOptInt_iff, lt_self_iff_false]
  · simp [h1, bool_desc_lt_and_iff, lt_self_iff_false]

theorem lePrev_iff (a b : Movie) :
    lePrev a b = true ↔ prevKey a ≤ prevKey b := by
  rw [prevKey_le_iff]
  unfold lePrev
  by_cases h2 : a.orderIndex = b.orderIndex
  · simp [h2, lt_self_iff_false]
  · simp [h2, ltOptInt_iff]

theorem leRepair_iff (a b : Movie) :
    leRepair a b = true ↔ repairKey a ≤ repairKey b := by
  rw [repairKey_le_iff]
  unfold leRepair
  by_cases h1 : a.latest = b.latest
  · by_cases h2 : a.previousHit = b.previousHit
    · simp [h1, h2, lt_self_iff_false]
    · simp [h1, h2, bool_asc_lt_and_iff, lt_self_iff_false]
  · simp [h1, bool_desc_lt_and_iff, lt_self_iff_false]

theorem leMove_iff (a b : Movie) :
    leMove a b = true ↔ moveKey a ≤ moveKey b := by
  rw [moveKey_le_iff]
  unfold leMove
  by_cases h1 : a.latest = b.latest
  · by_cases h2 : a.previousHit = b.previousHit
    · by_cases h3 : a.orderIndex = b.orderIndex
      · simp [h1, h2, h3, lt_self_iff_false, oiKey_le_iff]
      · simp [h1, h2, h3, lt_self_iff_false, oiKey_le_iff]
    · simp [h1, h2, bool_asc_lt_and_iff, lt_self_iff_false]
  · simp [h1, bool_desc_lt_and_iff, lt_self_iff_false]

/-! Propositional relations for the stable sort, and their order facts. -/

def rNormal (a b : Movie) : Prop := leNormal a b = true
def rPrev (a b : Movie) : Prop := lePrev a b = true
def rRepair (a b : Movie) : Prop := leRepair a b = true
def rMove (a b : Movie) : Prop := leMove a b = true

instance : DecidableRel rNormal := fun a b => instDecidableEqBool _ _
instance : DecidableRel rPrev := fun a b => instDecidableEqBool _ _
instance : DecidableRel rRepair := fun a b => instDecidableEqBool _ _
instance : DecidableRel rMove := fun a b => instDecidableEqBool _ _

instance : IsTotal Movie rNormal :=
  ⟨fun a b => by
    rcases le_total (normalKey a) (normalKey b) with h | h
    · exact Or.inl ((leNormal_iff a b).mpr h)
    · exact Or.inr ((leNormal_iff b a).mpr h)⟩

instance : IsTrans Movie rNormal :=
  ⟨fun a b c hab hbc =>
    (leNormal_iff a c).mpr
      (le_trans ((leNormal_iff a b).mp hab) ((leNormal_iff b c).mp hbc))⟩

instance : IsTotal Movie rPrev :=
  ⟨fun a b => by
    rcases le_total (prevKey a) (prevKey b) with h | h
    · exact Or.inl ((lePrev_iff a b).mpr h)
    · exact Or.inr ((lePrev_iff b a).mpr h)⟩

instance : IsTrans Movie rPrev :=
  ⟨fun a b c hab hbc =>
    (lePrev_iff a c).mpr
      (le_trans ((lePrev_iff a b).mp hab) ((lePrev_iff b c).mp hbc))⟩

instance : IsTotal Movie rRepair :=
  ⟨fun a b => by
    rcases le_total (repairKey a) (repairKey b) with h | h
    · exact Or.inl ((leRepair_iff a b).mpr h)
    · exact Or.inr ((leRepair_iff b a).mpr h)⟩

instance : IsTrans Movie rRepair :=
  ⟨fun a b c hab hbc =>
    (leRepair_iff a c).mpr
      (le_trans ((leRepair_iff a b).mp hab) ((leRepair_iff b c).mp hbc))⟩

instance : IsTotal Movie rMove :=
  ⟨fun a b => by
    rcases le_total (moveKey a) (moveKey b) with h | h
    · exact Or.inl ((leMove_iff a b).mpr h)
    · exact Or.inr ((leMove_iff b a).mpr h)⟩

instance : IsTrans Movie rMove :=
  ⟨fun a b c hab hbc =>
    (leMove_iff a c).mpr
      (le_trans ((leMove_iff a b).mp hab) ((leMove_iff b c).mp hbc))⟩

/-! ### The paginated listing assembler (`getMovies` / `getMoviesAdmin`)

The query-parameter filter (`category`, `language`, `type`, prefix search,
and for the public route `isPublished: {$ne: false}`) is abstracted as a
Bool predicate `p`; the claims quantify over every fixed filter. -/

/-- `{...baseFilter, previousHit: {$ne: true}}` sorted by `sortLatest`. -/
def normalSorted (db : List Movie) (p : Movie → Bool) : List Movie :=
  (db.filter (fun m => p m && !m.previousHit)).insertionSort rNormal

/-- `{...baseFilter, previousHit: true}` sorted by `sortPrevHits`. -/
def prevSorted (db : List Movie) (p : Movie → Bool) : List Movie :=
  (db.filter (fun m => p m && m.previousHit)).insertionSort rPrev

/-- The page-slice logic shared by `getMovies`, `getMoviesAdmin` and
`reorderMoviesInPage`: fill from the normal partition at offset `skip`, top
up from the previous-hits partition, else read previous hits at the
adjusted offset. -/
def pageSlice (normal prevHits : List Movie) (skip limit : Nat) : List Movie :=
  if skip < normal.length then
    let takeFromNormal := min limit (normal.length - skip)
    let takeFromPrevHits := limit - takeFromNormal
    if 0 < takeFromPrevHits then
      (normal.drop skip).take takeFromNormal ++ prevHits.take takeFromPrevHits
    else
      (normal.drop skip).take takeFromNormal
  else
    (prevHits.drop (skip - normal.length)).take limit

/-- Response shape of the listing endpoints. -/
structure ListResult where
  movies : List Movie
  page : Nat
  pages : Nat
  totalMovies : Nat
  deriving Repr, DecidableEq

/-- `getMovies` (and `getMoviesAdmin`, which differs only in the base
filter `p`): two counts, the page slice, and
`pages = Math.ceil(totalCount / limit) || 1`. -/
def getMovies (db : List Movie) (p : Movie → Bool) (page : Nat) : ListResult :=
  let limit := REORDER_PAGE_LIMIT
  let skip := (page - 1) * limit
  let normal := normalSorted db p
  let prevHits := prevSorted db p
  let totalCount := normal.length + prevHits.length
  let movies := pageSlice normal prevHits skip limit
  let ceilPages := (totalCount + limit - 1) / limit
  { movies := movies
    page := page
    pages := if ceilPages = 0 then 1 else ceilPages
    totalMovies := totalCount }

/-! ### Facts about the listing -/

theorem pageSlice_eq_drop_take (normal prevHits : List Movie) (skip limit : Nat) :
    pageSlice normal prevHits skip limit
      = ((normal ++ prevHits).drop skip).take limit := by
  unfold pageSlice
  by_cases h : skip < normal.length
  · simp only [h, if_true]
    have hdrop : (normal ++ prevHits).drop skip = normal.drop skip ++ prevHits :=
      List.drop_append_of_le_length (Nat.le_of_lt h)
    rw [hdrop, List.take_append_eq_append_take, List.length_drop]
    have htn : (normal.drop skip).take (min limit (normal.length - skip))
        = (normal.drop skip).take limit := by
      rcases Nat.le_total limit (normal.length - skip) with hle | hle
      · rw [Nat.min_eq_left hle]
      · rw [Nat.min_eq_right hle]
        rw [List.take_of_length_le, List.take_of_length_le] <;>
          simp [List.length_drop, hle]
    have htp : limit - min limit (normal.length - skip)
        = limit - (normal.length - skip) := by omega
    simp only [htn, htp]
    by_cases hpos : 0 < limit - (normal.length - skip)
    · simp only [hpos, if_true]
    · simp only [hpos, if_false]
      have h0 : limit - (normal.length - skip) = 0 := by omega
      rw [h0, List.take_zero, List.append_nil]
  · simp only [h, if_false]
    have hge : normal.length ≤ skip := Nat.le_of_not_lt h
    rw [List.drop_append_eq_append_drop]
    rw [List.drop_of_length_le hge, List.nil_append]

/-- Concatenating the first `n` chunks of size `L` of a list gives its first
`n * L` elements. -/
theorem join_chunks (l : List Movie) (L : Nat) :
    ∀ n : Nat, ((List.range n).map (fun i => (l.drop (i * L)).take L)).flatten
      = l.take (n * L)
  | 0 => by simp
  | n + 1 => by
    rw [List.range_succ, List.map_append, List.flatten_append, join_chunks l L n]
    simp only [List.map_cons, List.map_nil, List.flatten_cons, List.flatten_nil,
      List.append_nil]
    rw [← List.take_add]
    congr 1
    ring

theorem filter_partition_perm (db : List Movie) (p : Movie → Bool) :
    (db.filter (fun m => p m && !m.previousHit)
      ++ db.filter (fun m => p m && m.previousHit)).Perm (db.filter p) := by
  induction db with
  | nil => simp
  | cons a l ih =>
    by_cases hp : p a
    · by_cases hprev : a.previousHit
      · simp only [List.filter_cons, hp, hprev, Bool.not_true, Bool.and_false,
          Bool.and_true, if_false, if_true]
        exact List.perm_middle.trans (ih.cons a)
      · simp only [List.filter_cons, hp, hprev, Bool.not_false, Bool.and_false,
          Bool.and_true, if_true, if_false]
        exact ih.cons a
    · simp only [List.filter_cons, hp, Bool.false_and, if_false]
      exact ih

/-- `pages * 50` covers the whole catalog: `Math.ceil(T/50) || 1` pages of 50
hold at least `T` items. -/
theorem ceil_pages_mul_ge (T : Nat) :
    T ≤ (if (T + REORDER_PAGE_LIMIT - 1) / REORDER_PAGE_LIMIT = 0 then 1
         else (T + REORDER_PAGE_LIMIT - 1) / REORDER_PAGE_LIMIT)
        * REORDER_PAGE_LIMIT := by
  simp only [REORDER_PAGE_LIMIT]
  have h2 := Nat.div_add_mod (T + 50 - 1) 50
  have h3 : (T + 50 - 1) % 50 < 50 := Nat.mod_lt _ (by norm_num)
  split <;> omega

/-- C1: For every fixed listing filter and the fixed page size 50,
concatenating the item lists returned by `getMovies` for pages
1..totalPages yields the normal partition (sorted by latest desc,
orderIndex asc, createdAt desc) followed by the previous-hit partition
(sorted by orderIndex asc, createdAt desc), which together are a
permutation of the full filtered set: every matching item appears on
exactly one page, with no gaps and no duplicates. -/
theorem getMovies_partition_complete (db : List Movie) (p : Movie → Bool) :
    ((List.range (getMovies db p 1).pages).map
        (fun i => (getMovies db p (i + 1)).movies)).flatten
      = normalSorted db p ++ prevSorted db p
    ∧ (normalSorted db p ++ prevSorted db p).Perm (db.filter p)
    ∧ (normalSorted db p).Pairwise rNormal
    ∧ (prevSorted db p).Pairwise rPrev := by
  refine ⟨?_, ?_, ?_, ?_⟩
  · have hmov : ∀ i ∈ List.range (getMovies db p 1).pages,
        (getMovies db p (i + 1)).movies
          = ((normalSorted db p ++ prevSorted db p).drop
              (i * REORDER_PAGE_LIMIT)).take REORDER_PAGE_LIMIT := by
      intro i _
      simp only [getMovies, Nat.add_sub_cancel]
      exact pageSlice_eq_drop_take _ _ _ _
    rw [List.map_congr_left hmov, join_chunks]
    apply List.take_of_length_le
    have hlen : (normalSorted db p ++ prevSorted db p).length
        = (normalSorted db p).length + (prevSorted db p).length :=
      List.length_append _ _
    rw [hlen]
    simpa only [getMovies] using
      ceil_pages_mul_ge ((normalSorted db p).length + (prevSorted db p).length)
  · exact ((List.perm_insertionSort _ _).append (List.perm_insertionSort _ _)).trans
      (filter_partition_perm db p)
  · exact List.sorted_insertionSort rNormal _
  · exact List.sorted_insertionSort rPrev _

/-- C2 counterexample: with an empty catalog (total = 0) the listing
reports totalPages = 1 while ceil(total/50) = 0, so "totalPages =
ceil(total/L) ... including the case total = 0" fails: requesting page 2
(out of range) returns an empty list but totalPages 1 ≠ 0. -/
theorem getMovies_totalPages_zero_counterexample :
    (getMovies [] (fun _ => true) 2).movies = []
    ∧ (getMovies [] (fun _ => true) 2).pages = 1
    ∧ ((List.filter (fun _ => true) ([] : List Movie)).length
        + REORDER_PAGE_LIMIT - 1) / REORDER_PAGE_LIMIT = 0 := by
  refine ⟨rfl, rfl, rfl⟩

/-- C2 amended: for every page number strictly greater than totalPages the
listing raises no error and returns an empty item list together with
totalPages = max 1 (ceil(total/50)) for the given filter (the code reports
1, not 0, when total = 0). -/
theorem getMovies_out_of_range_empty (db : List Movie) (p : Movie → Bool)
    (page : Nat) (h : (getMovies db p page).pages < page) :
    (getMovies db p page).movies = []
    ∧ (getMovies db p page).pages
      = max 1 (((db.filter p).length + REORDER_PAGE_LIMIT - 1)
          / REORDER_PAGE_LIMIT) := by
  have hlenN : (normalSorted db p).length
      = (db.filter (fun m => p m && !m.previousHit)).length :=
    (List.perm_insertionSort _ _).length_eq
  have hlenP : (prevSorted db p).length
      = (db.filter (fun m => p m && m.previousHit)).length :=
    (List.perm_insertionSort _ _).length_eq
  have hT : (normalSorted db p).length + (prevSorted db p).length
      = (db.filter p).length := by
    have hperm := (filter_partition_perm db p).length_eq
    rw [List.length_append] at hperm
    rw [hlenN, hlenP]
    exact hperm
  constructor
  · have hskip : (normalSorted db p).length + (prevSorted db p).length
        ≤ (page - 1) * REORDER_PAGE_LIMIT := by
      have hle := ceil_pages_mul_ge
        ((normalSorted db p).length + (prevSorted db p).length)
      have hpage : (getMovies db p page).pages * REORDER_PAGE_LIMIT
          ≤ (page - 1) * REORDER_PAGE_LIMIT := by
        apply Nat.mul_le_mul_right
        omega
      refine le_trans ?_ hpage
      simpa only [getMovies] using hle
    simp only [getMovies]
    rw [pageSlice_eq_drop_take]
    rw [List.drop_of_length_le (by simpa using hskip), List.take_nil]
  · simp only [getMovies, hT]
    rcases Nat.eq_zero_or_pos (((db.filter p).length + REORDER_PAGE_LIMIT - 1)
        / REORDER_PAGE_LIMIT) with h0 | h0
    · simp [h0]
    · have hne : ¬ (((db.filter p).length + REORDER_PAGE_LIMIT - 1)
          / REORDER_PAGE_LIMIT = 0) := by omega
      simp only [hne, if_false]
      omega

/-- Witness for `getMovies_out_of_range_empty` at the empty catalog and
page 2. -/
theorem getMovies_out_of_range_empty_witness :
    (getMovies [] (fun _ => true) 2).movies = []
    ∧ (getMovies [] (fun _ => true) 2).pages
      = max 1 (((List.filter (fun _ => true) ([] : List Movie)).length
          + REORDER_PAGE_LIMIT - 1) / REORDER_PAGE_LIMIT) :=
  getMovies_out_of_range_empty [] (fun _ => true) 2 (by decide)

/-! ### Bulk order writes, the repair pass, and in-page reorder
(`ensureOrderIndexes`, `reorderMoviesInPage`) -/

/-- Apply a bulk write of `updateOne({_id}, {$set: {orderIndex}})` ops in
order. -/
def applyOrderOps (ops : List (JsStr × Int)) (db : List Movie) : List Movie :=
  ops.foldl
    (fun d op =>
      d.map (fun m =>
        if m.id = op.1 then { m with orderIndex := some op.2 } else m))
    db

/-- `ensureOrderIndexes`: when some movie has no `orderIndex`, renumber the
whole catalog in its `{latest: -1, previousHit: 1, createdAt: -1}` order as
one bulk write (`orderIndex = idx + 1`); otherwise do nothing.  Returns the
new store and the list of bulk-write calls issued. -/
def ensureOrderIndexes (db : List Movie) :
    List Movie × List (List (JsStr × Int)) :=
  if db.countP (fun m => m.orderIndex.isNone) = 0 then (db, [])
  else
    let allMovies := db.insertionSort rRepair
    let ops := allMovies.enum.map (fun p => (p.2.id, (p.1 : Int) + 1))
    (applyOrderOps ops db, [ops])

/-- JS whitespace (the ASCII part of `\s`). -/
def isJsWs (c : Char) : Bool :=
  c = ' ' || c = '\t' || c = '\n' || c = '\r' || c = '\x0b' || c = '\x0c'

/-- `String.prototype.trim`. -/
def jsTrim (s : JsStr) : JsStr :=
  ((s.dropWhile isJsWs).reverse.dropWhile isJsWs).reverse

/-- `orderedIds.map(id => String(id || '').trim()).filter(Boolean)`. -/
def normalizeIds (ids : List JsStr) : List JsStr :=
  (ids.map jsTrim).filter (fun s => !s.isEmpty)

def msgOrderedRequired : JsStr := "orderedIds array is required".toList
def msgNoDuplicates : JsStr := "orderedIds must not contain duplicates".toList
def msgPageRange : JsStr := "Page number out of range".toList
def msgExactIds : JsStr :=
  "orderedIds must contain exactly the IDs of this page".toList
def msgMissingSlots : JsStr := "Some movies are missing orderIndex. Try again.".toList

instance {ε α : Type} [DecidableEq ε] [DecidableEq α] :
    DecidableEq (Except ε α) := fun x y =>
  match x, y with
  | .error a, .error b =>
    if h : a = b then isTrue (h ▸ rfl)
    else isFalse (fun hc => h (Except.error.inj hc))
  | .error _, .ok _ => isFalse (fun hc => Except.noConfusion hc)
  | .ok _, .error _ => isFalse (fun hc => Except.noConfusion hc)
  | .ok a, .ok b =>
    if h : a = b then isTrue (h ▸ rfl)
    else isFalse (fun hc => h (Except.ok.inj hc))

/-- Result of one `reorderMoviesInPage` call: the store afterwards, the
HTTP-level outcome (`ok reorderedCount` or the thrown message), and every
bulk-write call issued (each entry is one `bulkWrite`). -/
structure ReorderOutcome where
  db : List Movie
  result : Except JsStr Nat
  writes : List (List (JsStr × Int))
  deriving Repr, DecidableEq

/-- The documents occupying the requested page, recomputed with the same
partition logic as the admin listing. -/
def reorderPageDocs (db : List Movie) (p : Movie → Bool) (page : Nat) :
    List Movie :=
  pageSlice (normalSorted db p) (prevSorted db p)
    ((page - 1) * REORDER_PAGE_LIMIT) REORDER_PAGE_LIMIT

/-- The page's slot values: the occupants' orderIndex values sorted
ascending (`.map(Number).filter(isFinite).sort((a, b) => a - b)`). -/
def reorderSlots (db : List Movie) (p : Movie → Bool) (page : Nat) :
    List Int :=
  ((reorderPageDocs db p page).filterMap (fun m => m.orderIndex)).insertionSort
    (fun a b => a ≤ b)

/-- `reorderMoviesInPage`: normalize and validate the submitted id list
against the exact occupants of the page, then swap the page's orderIndex
slot values onto the submitted order as one bulk write.  The query-derived
base filter is abstracted as `p`. -/
def reorderMoviesInPage (db : List Movie) (p : Movie → Bool)
    (pageNumber : Int) (orderedIds : List JsStr) : ReorderOutcome :=
  let page : Nat := (max 1 pageNumber).toNat
  if orderedIds.isEmpty then ⟨db, .error msgOrderedRequired, []⟩
  else
    let ordered := normalizeIds orderedIds
    if ordered.isEmpty then ⟨db, .error msgOrderedRequired, []⟩
    else if ¬ ordered.Nodup then ⟨db, .error msgNoDuplicates, []⟩
    else
      let repaired := ensureOrderIndexes db
      let db1 := repaired.1
      let skip := (page - 1) * REORDER_PAGE_LIMIT
      let totalCount := (normalSorted db1 p).length + (prevSorted db1 p).length
      if totalCount ≤ skip then ⟨db1, .error msgPageRange, repaired.2⟩
      else
        let pageDocs := reorderPageDocs db1 p page
        if pageDocs.isEmpty then ⟨db1, .error msgPageRange, repaired.2⟩
        else
          let pageIds := pageDocs.map (fun m => m.id)
          if ordered.length ≠ pageIds.length then
            ⟨db1, .error msgExactIds, repaired.2⟩
          else if ¬ (∀ i ∈ ordered, i ∈ pageIds) then
            ⟨db1, .error msgExactIds, repaired.2⟩
          else if ¬ (∀ i ∈ pageIds, i ∈ ordered) then
            ⟨db1, .error msgExactIds, repaired.2⟩
          else
            let slots := reorderSlots db1 p page
            if slots.length ≠ pageDocs.length then
              ⟨db1, .error msgMissingSlots, repaired.2⟩
            else
              let ops := ordered.zip slots
              ⟨applyOrderOps ops db1, .ok ops.length, repaired.2 ++ [ops]⟩

/-! ### Facts about repair and reorder -/

theorem ensureOrderIndexes_noop (db : List Movie)
    (hoi : ∀ m ∈ db, m.orderIndex ≠ none) :
    ensureOrderIndexes db = (db, []) := by
  unfold ensureOrderIndexes
  have h0 : db.countP (fun m => m.orderIndex.isNone) = 0 := by
    rw [List.countP_eq_zero]
    intro m hm
    simpa [Option.isNone_iff_eq_none] using hoi m hm
  simp [h0]

theorem applyOrderOps_cons (op : JsStr × Int) (ops : List (JsStr × Int))
    (db : List Movie) :
    applyOrderOps (op :: ops) db
      = applyOrderOps ops
          (db.map (fun m =>
            if m.id = op.1 then { m with orderIndex := some op.2 } else m)) :=
  rfl

/-- Applying the zipped reorder bulk write is, document-wise: look your id
up in the submitted order and take the slot at that index; otherwise stay
unchanged. -/
theorem applyOrderOps_zip_eq_map :
    ∀ (ordered : List JsStr) (slots : List Int) (db : List Movie),
      ordered.Nodup → ordered.length = slots.length →
      applyOrderOps (ordered.zip slots) db
        = db.map (fun m =>
            match ordered.findIdx? (fun i => decide (i = m.id)) with
            | some j => { m with orderIndex := slots[j]? }
            | none => m)
  | [], slots, db, _, _ => by
    simp [applyOrderOps]
  | a :: tl, [], db, _, hlen => by
    simp at hlen
  | a :: tl, s :: ts, db, hnd, hlen => by
    rw [List.zip_cons_cons, applyOrderOps_cons,
      applyOrderOps_zip_eq_map tl ts _ (List.Nodup.of_cons hnd)
        (by simpa using hlen),
      List.map_map]
    apply List.map_congr_left
    intro m _
    by_cases hma : m.id = a
    · have hnotin : a ∉ tl := (List.nodup_cons.mp hnd).1
      have hfi : tl.findIdx? (fun i => decide (i = a)) = none := by
        rw [List.findIdx?_eq_none_iff]
        intro x hx
        simp only [decide_eq_false_iff_not]
        intro hxe
        exact hnotin (hxe ▸ hx)
      have hfa : (decide (a = m.id)) = true := by simp [hma]
      simp [Function.comp_apply, hma, hfi, hfa]
    · have hfa : (decide (a = m.id)) = false := by
        simp only [decide_eq_false_iff_not]
        intro hc
        exact hma hc.symm
      simp only [Function.comp_apply, if_neg hma, List.findIdx?_cons, hfa,
        if_false, Bool.false_eq_true, List.findIdx?_succ]
      cases hfi : tl.findIdx? (fun i => decide (i = m.id)) with
      | none => simp [hfi]
      | some j => simp [hfi]

/-- Every call of `reorderMoviesInPage` on a store whose documents all have
an `orderIndex` either fails leaving the store untouched with no writes, or
passes the full validation and issues exactly the one zipped bulk write. -/
theorem reorder_characterization (db : List Movie) (p : Movie → Bool)
    (pageNumber : Int) (orderedIds : List JsStr)
    (hoi : ∀ m ∈ db, m.orderIndex ≠ none) :
    (∃ e, reorderMoviesInPage db p pageNumber orderedIds
        = ⟨db, Except.error e, []⟩)
    ∨ (reorderMoviesInPage db p pageNumber orderedIds
        = ⟨applyOrderOps ((normalizeIds orderedIds).zip
              (reorderSlots db p (max 1 pageNumber).toNat)) db,
           Except.ok ((normalizeIds orderedIds).zip
              (reorderSlots db p (max 1 pageNumber).toNat)).length,
           [(normalizeIds orderedIds).zip
              (reorderSlots db p (max 1 pageNumber).toNat)]⟩
        ∧ (normalizeIds orderedIds).Nodup
        ∧ (normalizeIds orderedIds).length
            = ((reorderPageDocs db p (max 1 pageNumber).toNat).map
                (fun m => m.id)).length
        ∧ (∀ i ∈ normalizeIds orderedIds,
            i ∈ (reorderPageDocs db p (max 1 pageNumber).toNat).map
              (fun m => m.id))
        ∧ (∀ i ∈ (reorderPageDocs db p (max 1 pageNumber).toNat).map
              (fun m => m.id), i ∈ normalizeIds orderedIds)
        ∧ (reorderSlots db p (max 1 pageNumber).toNat).length
            = (reorderPageDocs db p (max 1 pageNumber).toNat).length) := by
  simp only [reorderMoviesInPage, ensureOrderIndexes_noop db hoi]
  by_cases h1 : orderedIds.isEmpty = true
  · rw [if_pos h1]
    exact Or.inl ⟨msgOrderedRequired, rfl⟩
  rw [if_neg h1]
  by_cases h2 : (normalizeIds orderedIds).isEmpty = true
  · rw [if_pos h2]
    exact Or.inl ⟨msgOrderedRequired, rfl⟩
  rw [if_neg h2]
  by_cases h3 : (normalizeIds orderedIds).Nodup
  · rw [if_neg (not_not_intro h3)]
    by_cases h4 : (normalSorted db p).length + (prevSorted db p).length
        ≤ ((max 1 pageNumber).toNat - 1) * REORDER_PAGE_LIMIT
    · rw [if_pos h4]
      exact Or.inl ⟨msgPageRange, rfl⟩
    rw [if_neg h4]
    by_cases h5 : (reorderPageDocs db p (max 1 pageNumber).toNat).isEmpty = true
    · rw [if_pos h5]
      exact Or.inl ⟨msgPageRange, rfl⟩
    rw [if_neg h5]
    by_cases h6 : (normalizeIds orderedIds).length
        = ((reorderPageDocs db p (max 1 pageNumber).toNat).map
            (fun m => m.id)).length
    · rw [if_neg (not_not_intro h6)]
      by_cases h7 : ∀ i ∈ normalizeIds orderedIds,
          i ∈ (reorderPageDocs db p (max 1 pageNumber).toNat).map (fun m => m.id)
      · rw [if_neg (not_not_intro h7)]
        by_cases h8 : ∀ i ∈ (reorderPageDocs db p (max 1 pageNumber).toNat).map
            (fun m => m.id), i ∈ normalizeIds orderedIds
        · rw [if_neg (not_not_intro h8)]
          by_cases h9 : (reorderSlots db p (max 1 pageNumber).toNat).length
              = (reorderPageDocs db p (max 1 pageNumber).toNat).length
          · rw [if_neg (not_not_intro h9)]
            exact Or.inr ⟨rfl, h3, h6, h7, h8, h9⟩
          · rw [if_pos h9]
            exact Or.inl ⟨msgMissingSlots, rfl⟩
        · rw [if_pos h8]
          exact Or.inl ⟨msgExactIds, rfl⟩
      · rw [if_pos h7]
        exact Or.inl ⟨msgExactIds, rfl⟩
    · rw [if_pos h6]
      exact Or.inl ⟨msgExactIds, rfl⟩
  · rw [if_pos h3]
    exact Or.inl ⟨msgNoDuplicates, rfl⟩

/-- A minimal catalog document for concrete instances. -/
def mkMovie (i : JsStr) (oi : Option Int) : Movie :=
  { id := i, name := [], year := none, typ := [], latest := false,
    previousHit := false, orderIndex := oi, createdAt := 0,
    isPublished := some true, slug := [], viewCount := none, imdbId := [],
    externalRatings := none, externalRatingsUpdatedAt := none, casts := [],
    director := [], tmdbId := none, tmdbType := [],
    tmdbCreditsUpdatedAt := none }

/-- C3 counterexample: on a store holding one movie without an
`orderIndex`, a reorder call with a foreign id fails validation as the
claim says, yet a bulk write (the `ensureOrderIndexes` repair pass, which
runs before validation) has already been applied: the write trace is
nonempty and the store changed. -/
theorem reorder_failed_validation_writes_counterexample :
    (reorderMoviesInPage [mkMovie [Char.ofNat 97] none] (fun _ => true) 1
        [[Char.ofNat 98]]).result = Except.error msgExactIds
    ∧ (reorderMoviesInPage [mkMovie [Char.ofNat 97] none] (fun _ => true) 1
        [[Char.ofNat 98]]).writes = [[([Char.ofNat 97], 1)]]
    ∧ (reorderMoviesInPage [mkMovie [Char.ofNat 97] none] (fun _ => true) 1
        [[Char.ofNat 98]]).db ≠ [mkMovie [Char.ofNat 97] none] := by
  refine ⟨by decide, by decide, by decide⟩

/-- C3 amended: provided every stored item already has an `orderIndex` (so
the pre-validation repair pass is a no-op), a reorder call that fails
(duplicate, foreign or missing id, wrong length, or an out-of-range page)
applies no writes and leaves the store unchanged, and a call that passes
validation issues exactly one bulk write; moreover a successful call
certifies that the normalized id list was duplicate-free and a permutation
of the page occupants' ids. -/
theorem reorder_all_or_nothing (db : List Movie) (p : Movie → Bool)
    (pageNumber : Int) (orderedIds : List JsStr)
    (hoi : ∀ m ∈ db, m.orderIndex ≠ none) :
    (∀ e, (reorderMoviesInPage db p pageNumber orderedIds).result
          = Except.error e →
        (reorderMoviesInPage db p pageNumber orderedIds).writes = []
        ∧ (reorderMoviesInPage db p pageNumber orderedIds).db = db)
    ∧ (∀ k, (reorderMoviesInPage db p pageNumber orderedIds).result
          = Except.ok k →
        (reorderMoviesInPage db p pageNumber orderedIds).writes.length = 1
        ∧ (normalizeIds orderedIds).Nodup
        ∧ (normalizeIds orderedIds).Perm
            ((reorderPageDocs db p (max 1 pageNumber).toNat).map
              (fun m => m.id))) := by
  rcases reorder_characterization db p pageNumber orderedIds hoi with
    ⟨e, heq⟩ | ⟨heq, hnd, hlen, hsub, _, _⟩
  · constructor
    · intro e2 _
      rw [heq]
      exact ⟨rfl, rfl⟩
    · intro k hk
      rw [heq] at hk
      exact absurd hk (by simp)
  · constructor
    · intro e he
      rw [heq] at he
      exact absurd he (by simp)
    · intro k _
      refine ⟨by rw [heq]; rfl, hnd, ?_⟩
      exact (List.subperm_of_subset hnd hsub).perm_of_length_le (le_of_eq hlen.symm)

/-- Witness for `reorder_all_or_nothing`: the empty store (page out of
range → error, no writes). -/
theorem reorder_all_or_nothing_witness :
    (∀ e, (reorderMoviesInPage [] (fun _ => true) 1
          [[Char.ofNat 97]]).result = Except.error e →
        (reorderMoviesInPage [] (fun _ => true) 1
          [[Char.ofNat 97]]).writes = []
        ∧ (reorderMoviesInPage [] (fun _ => true) 1
          [[Char.ofNat 97]]).db = [])
    ∧ (∀ k, (reorderMoviesInPage [] (fun _ => true) 1
          [[Char.ofNat 97]]).result = Except.ok k →
        (reorderMoviesInPage [] (fun _ => true) 1
          [[Char.ofNat 97]]).writes.length = 1
        ∧ (normalizeIds [[Char.ofNat 97]]).Nodup
        ∧ (normalizeIds [[Char.ofNat 97]]).Perm
            ((reorderPageDocs [] (fun _ => true) (max 1 (1 : Int)).toNat).map
              (fun m => m.id))) :=
  reorder_all_or_nothing [] (fun _ => true) 1 [[Char.ofNat 97]]
    (by intro m hm; cases hm)

/-- C4 amended: provided every stored document already has an `orderIndex`
(so the pre-validation repair pass is a no-op — see the counterexample for
why the unrestricted claim is false), a successful reorder maps each
stored document as follows: a document whose id sits at position `j` of
the submitted order receives the `j`-th smallest of the page occupants'
previous orderIndex values; every other document (in particular everything
outside page P) is unchanged in all fields.  The slot list is the
ascending sort — hence a permutation — of the page occupants' previous
orderIndex values. -/
theorem reorder_slot_preserving (db : List Movie) (p : Movie → Bool)
    (pageNumber : Int) (orderedIds : List JsStr) (k : Nat)
    (hoi : ∀ m ∈ db, m.orderIndex ≠ none)
    (hok : (reorderMoviesInPage db p pageNumber orderedIds).result
      = Except.ok k) :
    (reorderMoviesInPage db p pageNumber orderedIds).db
      = db.map (fun m =>
          match (normalizeIds orderedIds).findIdx?
              (fun i => decide (i = m.id)) with
          | some j => { m with orderIndex :=
              (reorderSlots db p (max 1 pageNumber).toNat)[j]? }
          | none => m)
    ∧ (reorderSlots db p (max 1 pageNumber).toNat).Perm
        ((reorderPageDocs db p (max 1 pageNumber).toNat).filterMap
          (fun m => m.orderIndex))
    ∧ (reorderSlots db p (max 1 pageNumber).toNat).Pairwise
        (fun a b => a ≤ b) := by
  rcases reorder_characterization db p pageNumber orderedIds hoi with
    ⟨e, heq⟩ | ⟨heq, hnd, hlen, _, _, hslots⟩
  · rw [heq] at hok
    exact absurd hok (by simp)
  · refine ⟨?_, List.perm_insertionSort _ _, ?_⟩
    · rw [heq]
      apply applyOrderOps_zip_eq_map _ _ _ hnd
      rw [hlen, List.length_map, ← hslots]
    · exact List.sorted_insertionSort (fun a b : Int => a ≤ b) _

/-- Witness for `reorder_slot_preserving`: swapping a two-movie page. -/
theorem reorder_slot_preserving_witness :
    (reorderMoviesInPage
        [mkMovie [Char.ofNat 97] (some 1), mkMovie [Char.ofNat 98] (some 2)]
        (fun _ => true) 1 [[Char.ofNat 98], [Char.ofNat 97]]).db
      = ([mkMovie [Char.ofNat 97] (some 1),
          mkMovie [Char.ofNat 98] (some 2)].map (fun m =>
          match (normalizeIds [[Char.ofNat 98], [Char.ofNat 97]]).findIdx?
              (fun i => decide (i = m.id)) with
          | some j => { m with orderIndex :=
              (reorderSlots
                [mkMovie [Char.ofNat 97] (some 1),
                 mkMovie [Char.ofNat 98] (some 2)]
                (fun _ => true) (max 1 (1 : Int)).toNat)[j]? }
          | none => m))
    ∧ (reorderSlots
        [mkMovie [Char.ofNat 97] (some 1), mkMovie [Char.ofNat 98] (some 2)]
        (fun _ => true) (max 1 (1 : Int)).toNat).Perm
        ((reorderPageDocs
            [mkMovie [Char.ofNat 97] (some 1),
             mkMovie [Char.ofNat 98] (some 2)]
            (fun _ => true) (max 1 (1 : Int)).toNat).filterMap
          (fun m => m.orderIndex))
    ∧ (reorderSlots
        [mkMovie [Char.ofNat 97] (some 1), mkMovie [Char.ofNat 98] (some 2)]
        (fun _ => true) (max 1 (1 : Int)).toNat).Pairwise (fun a b => a ≤ b) :=
  reorder_slot_preserving
    [mkMovie [Char.ofNat 97] (some 1), mkMovie [Char.ofNat 98] (some 2)]
    (fun _ => true) 1 [[Char.ofNat 98], [Char.ofNat 97]] 2
    (by decide) (by decide)

/-- A 51-document store whose 51st document (by the repair sort order) is
missing its `orderIndex`: the first 50 occupy page 1. -/
def c4db : List Movie :=
  (List.range 50).map
    (fun n => mkMovie [Char.ofNat (65 + n)] (some ((n : Int) + 1)))
    ++ [mkMovie [Char.ofNat 120] none]

/-- The ids of page 1's occupants of `c4db`, in their page order. -/
def c4ids : List JsStr := (List.range 50).map (fun n => [Char.ofNat (65 + n)])

set_option maxRecDepth 40000 in
set_option maxHeartbeats 2000000 in
/-- C4 counterexample: on `c4db`, reordering page 1 with exactly that
page's ids SUCCEEDS (`ok 50`), yet the off-page 51st document — whose id is
not among the submitted ids — does not retain its prior `orderIndex`: the
pre-validation `ensureOrderIndexes` repair pass renumbers the whole
catalog, changing it from missing to 51.  This refutes the claim's frame
property ("every item outside page P retains its prior orderIndex"). -/
theorem reorder_outside_page_renumbered_counterexample :
    (reorderMoviesInPage c4db (fun _ => true) 1 c4ids).result = Except.ok 50
    ∧ [Char.ofNat 120] ∉ c4ids
    ∧ (c4db.filter (fun m => decide (m.id = [Char.ofNat 120]))).map
        (fun m => m.orderIndex) = [none]
    ∧ ((reorderMoviesInPage c4db (fun _ => true) 1 c4ids).db.filter
        (fun m => decide (m.id = [Char.ofNat 120]))).map
        (fun m => m.orderIndex) = [(some 51 : Option Int)] := by
  refine ⟨by decide, by decide, by decide, by decide⟩

/-! ### `moveMoviesToPage`: relocate a set of items to a target page -/

/-- Response body of a successful move. -/
structure MoveStats where
  total : Nat
  targetPage : Nat
  movedCount : Nat
  deriving Repr, DecidableEq

/-- Result of one `moveMoviesToPage` call. -/
structure MoveOutcome where
  db : List Movie
  result : Except JsStr MoveStats
  deriving Repr, DecidableEq

def msgMovieIdsRequired : JsStr := "movieIds array is required".toList
def msgNotFound : JsStr := "Selected movies not found".toList

/-- Apply the move bulk write: each op sets a document's orderIndex, and
(for moved items targeting page 1) also `previousHit := false`,
`latest := true`. -/
def applyMoveOps (ops : List (JsStr × Int × Bool)) (db : List Movie) :
    List Movie :=
  ops.foldl
    (fun d op =>
      d.map (fun m =>
        if m.id = op.1 then
          if op.2.2 then
            { m with
              orderIndex := some op.2.1
              previousHit := false
              latest := true }
          else { m with orderIndex := some op.2.1 }
        else m))
    db

/-- The full current global ordering
(`find({}).sort({latest: -1, previousHit: 1, orderIndex: 1})`). -/
def moveAll (db : List Movie) : List Movie := db.insertionSort rMove

/-- The items to move, in global order. -/
def moveMoved (db : List Movie) (movieIds : List JsStr) : List Movie :=
  (moveAll db).filter (fun m => decide (m.id ∈ movieIds))

/-- Everything else, in global order. -/
def moveRemaining (db : List Movie) (movieIds : List JsStr) : List Movie :=
  (moveAll db).filter (fun m => !(decide (m.id ∈ movieIds)))

def moveTotal (db : List Movie) (movieIds : List JsStr) : Nat :=
  (moveRemaining db movieIds).length + (moveMoved db movieIds).length

/-- `maxPage = Math.max(1, Math.ceil(total / REORDER_PAGE_LIMIT))`. -/
def moveMaxPage (db : List Movie) (movieIds : List JsStr) : Nat :=
  max 1 ((moveTotal db movieIds + REORDER_PAGE_LIMIT - 1) / REORDER_PAGE_LIMIT)

/-- The requested page clamped into `[1, maxPage]`. -/
def movePage (db : List Movie) (targetPage : Int) (movieIds : List JsStr) :
    Nat :=
  min (max 1 targetPage).toNat (moveMaxPage db movieIds)

/-- `insertIndex = Math.min((page - 1) * L, remaining.length)`. -/
def moveInsertIndex (db : List Movie) (targetPage : Int)
    (movieIds : List JsStr) : Nat :=
  min ((movePage db targetPage movieIds - 1) * REORDER_PAGE_LIMIT)
    (moveRemaining db movieIds).length

/-- `newOrder = remaining[0..ins) ++ moved ++ remaining[ins..)`. -/
def moveNewOrder (db : List Movie) (targetPage : Int)
    (movieIds : List JsStr) : List Movie :=
  (moveRemaining db movieIds).take (moveInsertIndex db targetPage movieIds)
    ++ moveMoved db movieIds
    ++ (moveRemaining db movieIds).drop (moveInsertIndex db targetPage movieIds)

/-- The single bulk write of a move: renumber the whole sequence
(`orderIndex = idx + 1`), forcing `previousHit = false, latest = true` on
moved items when the clamped target page is 1. -/
def moveOps (db : List Movie) (targetPage : Int) (movieIds : List JsStr) :
    List (JsStr × Int × Bool) :=
  (moveNewOrder db targetPage movieIds).enum.map
    (fun q => (q.2.id, ((q.1 : Int) + 1,
      decide (movePage db targetPage movieIds = 1)
        && decide (q.2.id ∈ movieIds))))

/-- `moveMoviesToPage`. -/
def moveMoviesToPage (db : List Movie) (targetPage : Int)
    (movieIds : List JsStr) : MoveOutcome :=
  if movieIds.isEmpty then ⟨db, .error msgMovieIdsRequired⟩
  else
    let db1 := (ensureOrderIndexes db).1
    if (moveMoved db1 movieIds).isEmpty then ⟨db1, .error msgNotFound⟩
    else
      ⟨applyMoveOps (moveOps db1 targetPage movieIds) db1,
       .ok ⟨moveTotal db1 movieIds, movePage db1 targetPage movieIds,
            (moveMoved db1 movieIds).length⟩⟩

/-! ### Facts about the move operation -/

theorem applyMoveOps_cons (op : JsStr × Int × Bool)
    (ops : List (JsStr × Int × Bool)) (db : List Movie) :
    applyMoveOps (op :: ops) db
      = applyMoveOps ops
          (db.map (fun m =>
            if m.id = op.1 then
              if op.2.2 then
                { m with orderIndex := some op.2.1, previousHit := false, latest := true }
              else { m with orderIndex := some op.2.1 }
            else m)) :=
  rfl

/-- Applying the enumerated move bulk write is, document-wise: look your id
up in the new order and set `orderIndex` to that position + 1 (plus the
flag overwrite when the op requests it). -/
theorem applyMoveOps_enumFrom :
    ∀ (nl : List Movie) (k : Nat) (db : List Movie) (flagOf : JsStr → Bool),
      (nl.map (fun x => x.id)).Nodup →
      applyMoveOps ((nl.enumFrom k).map
          (fun q => (q.2.id, ((q.1 : Int) + 1, flagOf q.2.id)))) db
        = db.map (fun m =>
            match (nl.map (fun x => x.id)).findIdx?
                (fun i => decide (i = m.id)) with
            | some j =>
              if flagOf m.id then
                { m with orderIndex := some (((k + j : Nat) : Int) + 1), previousHit := false, latest := true }
              else { m with orderIndex := some (((k + j : Nat) : Int) + 1) }
            | none => m)
  | [], k, db, flagOf, _ => by
    simp [applyMoveOps]
  | a :: tl, k, db, flagOf, hnd => by
    rw [List.enumFrom_cons, List.map_cons, applyMoveOps_cons,
      applyMoveOps_enumFrom tl (k + 1) _ flagOf
        (by simpa using List.Nodup.of_cons (by simpa using hnd)),
      List.map_map]
    apply List.map_congr_left
    intro m _
    by_cases hma : m.id = a.id
    · have hnotin : a.id ∉ tl.map (fun x => x.id) :=
        (List.nodup_cons.mp (by simpa using hnd)).1
      have hfi : (tl.map (fun x => x.id)).findIdx?
          (fun i => decide (i = a.id)) = none := by
        rw [List.findIdx?_eq_none_iff]
        intro x hx
        simp only [decide_eq_false_iff_not]
        intro hxe
        exact hnotin (hxe ▸ hx)
      have hfa : (decide (a.id = m.id)) = true := by simp [hma]
      have hfi3 : List.findIdx? (fun x => decide (x.id = a.id)) tl = none := by
        rw [List.findIdx?_eq_none_iff]
        intro x hx
        simp only [decide_eq_false_iff_not]
        intro hxe
        exact hnotin (List.mem_map.mpr ⟨x, hx, hxe⟩)
      by_cases hfl : flagOf a.id = true
      · simp [Function.comp_def, hma, hfi, hfa, hfl, hfi3]
      · simp [Function.comp_def, hma, hfi, hfa, hfl, hfi3]
    · have hfa : (decide (a.id = m.id)) = false := by
        simp only [decide_eq_false_iff_not]
        intro hc
        exact hma hc.symm
      simp only [Function.comp_apply, if_neg hma, List.map_cons,
        List.findIdx?_cons, hfa, if_false, Bool.false_eq_true,
        List.findIdx?_succ]
      cases hfi : (tl.map (fun x => x.id)).findIdx?
          (fun i => decide (i = m.id)) with
      | none => simp [hfi]
      | some j =>
        have harith : k + 1 + j = k + (j + 1) := by omega
        simp [hfi, harith]

/-- Every `moveMoviesToPage` call on a store whose documents all have an
`orderIndex` either fails leaving the store untouched, or applies the one
renumbering bulk write. -/
theorem move_characterization (db : List Movie) (targetPage : Int)
    (movieIds : List JsStr) (hoi : ∀ m ∈ db, m.orderIndex ≠ none) :
    (∃ e, moveMoviesToPage db targetPage movieIds = ⟨db, Except.error e⟩)
    ∨ (moveMoviesToPage db targetPage movieIds
        = ⟨applyMoveOps (moveOps db targetPage movieIds) db,
           Except.ok ⟨moveTotal db movieIds, movePage db targetPage movieIds,
             (moveMoved db movieIds).length⟩⟩
       ∧ moveMoved db movieIds ≠ []) := by
  unfold moveMoviesToPage
  simp only [ensureOrderIndexes_noop db hoi]
  by_cases h1 : movieIds.isEmpty = true
  · rw [if_pos h1]
    exact Or.inl ⟨msgMovieIdsRequired, rfl⟩
  rw [if_neg h1]
  by_cases h2 : (moveMoved db movieIds).isEmpty = true
  · rw [if_pos h2]
    exact Or.inl ⟨msgNotFound, rfl⟩
  · rw [if_neg h2]
    refine Or.inr ⟨rfl, ?_⟩
    simpa using h2

/-- The new order is a permutation of the whole store. -/
theorem moveNewOrder_perm (db : List Movie) (targetPage : Int)
    (movieIds : List JsStr) :
    (moveNewOrder db targetPage movieIds).Perm db := by
  unfold moveNewOrder
  have h1 : (moveRemaining db movieIds).take
        (moveInsertIndex db targetPage movieIds)
      ++ (moveMoved db movieIds
      ++ (moveRemaining db movieIds).drop
        (moveInsertIndex db targetPage movieIds))
      |>.Perm (moveMoved db movieIds
        ++ ((moveRemaining db movieIds).take
              (moveInsertIndex db targetPage movieIds)
          ++ (moveRemaining db movieIds).drop
              (moveInsertIndex db targetPage movieIds))) :=
    List.perm_append_comm_assoc _ _ _
  rw [← List.append_assoc] at h1
  refine h1.trans ?_
  rw [List.take_append_drop]
  exact (List.filter_append_perm _ (moveAll db)).trans
    (List.perm_insertionSort rMove db)

/-- With a clamped target page of 1 the insertion offset is 0: the moved
items are spliced in front of everything else. -/
theorem moveNewOrder_page_one (db : List Movie) (targetPage : Int)
    (movieIds : List JsStr) (hp1 : movePage db targetPage movieIds = 1) :
    moveNewOrder db targetPage movieIds
      = moveMoved db movieIds ++ moveRemaining db movieIds := by
  unfold moveNewOrder moveInsertIndex
  rw [hp1]
  simp

theorem findIdx?_append_left_of_mem {xs ys : List JsStr} {t : JsStr}
    (ht : t ∈ xs) :
    ∃ j, (xs ++ ys).findIdx? (fun i => decide (i = t)) = some j
      ∧ j < xs.length := by
  have hx : xs.findIdx? (fun i => decide (i = t))
      = some (xs.findIdx (fun i => decide (i = t))) :=
    List.findIdx?_eq_some_of_exists ⟨t, ht, by simp⟩
  have hlt : xs.findIdx (fun i => decide (i = t)) < xs.length :=
    ((List.findIdx?_eq_some_iff_findIdx_eq).mp hx).1
  refine ⟨xs.findIdx (fun i => decide (i = t)), ?_, hlt⟩
  rw [List.findIdx?_append, hx]
  rfl

theorem findIdx?_append_right_of_mem {xs ys : List JsStr} {t : JsStr}
    (hnx : t ∉ xs) (ht : t ∈ ys) :
    ∃ j, (xs ++ ys).findIdx? (fun i => decide (i = t)) = some j
      ∧ xs.length ≤ j := by
  have hx : xs.findIdx? (fun i => decide (i = t)) = none := by
    rw [List.findIdx?_eq_none_iff]
    intro x hxm
    simp only [decide_eq_false_iff_not]
    rintro rfl
    exact hnx hxm
  have hy : ys.findIdx? (fun i => decide (i = t))
      = some (ys.findIdx (fun i => decide (i = t))) :=
    List.findIdx?_eq_some_of_exists ⟨t, ht, by simp⟩
  refine ⟨ys.findIdx (fun i => decide (i = t)) + xs.length, ?_, by omega⟩
  rw [List.findIdx?_append, hx, hy]
  rfl

theorem findIdx?_pred_getElem {ids : List JsStr} {t : JsStr} {j : Nat}
    (h : ids.findIdx? (fun i => decide (i = t)) = some j) :
    ∃ hj : j < ids.length, ids[j] = t := by
  obtain ⟨hj, hp, -⟩ := (List.findIdx?_eq_some_iff_getElem).mp h
  exact ⟨hj, by simpa using hp⟩

/-- Per-document description of the store after a successful move to
(clamped) page 1: every document's id sits at a unique position `j` of the
new order and its orderIndex becomes `j + 1`; moved documents sit in the
first `movedCount` positions and get `latest = true, previousHit = false`;
the rest keep their flags, and `isPublished` is never touched. -/
theorem move_page_one_doc_facts (db : List Movie) (targetPage : Int)
    (movieIds : List JsStr)
    (hnd : (db.map (fun m => m.id)).Nodup)
    (hp1 : movePage db targetPage movieIds = 1)
    (heq : moveMoviesToPage db targetPage movieIds
        = ⟨applyMoveOps (moveOps db targetPage movieIds) db,
           Except.ok ⟨moveTotal db movieIds, movePage db targetPage movieIds,
             (moveMoved db movieIds).length⟩⟩) :
    ∀ m2 ∈ (moveMoviesToPage db targetPage movieIds).db,
      ∃ m ∈ db, ∃ j : Nat,
        ((moveNewOrder db targetPage movieIds).map (fun x => x.id)).findIdx?
            (fun i => decide (i = m.id)) = some j
        ∧ m2.id = m.id
        ∧ m2.orderIndex = some ((j : Int) + 1)
        ∧ m2.isPublished = m.isPublished
        ∧ (m.id ∈ movieIds →
            j < (moveMoved db movieIds).length
            ∧ m2.latest = true ∧ m2.previousHit = false)
        ∧ (m.id ∉ movieIds →
            (moveMoved db movieIds).length ≤ j
            ∧ m2.latest = m.latest ∧ m2.previousHit = m.previousHit) := by
  have hperm : (moveNewOrder db targetPage movieIds).Perm db :=
    moveNewOrder_perm db targetPage movieIds
  have hids_nodup :
      ((moveNewOrder db targetPage movieIds).map (fun x => x.id)).Nodup :=
    ((hperm.map (fun x => x.id)).nodup_iff).mpr hnd
  have hdb : (moveMoviesToPage db targetPage movieIds).db
      = db.map (fun m =>
          match ((moveNewOrder db targetPage movieIds).map
              (fun x => x.id)).findIdx? (fun i => decide (i = m.id)) with
          | some j =>
            if (decide (movePage db targetPage movieIds = 1)
                && decide (m.id ∈ movieIds)) then
              { m with orderIndex := some (((0 + j : Nat) : Int) + 1), previousHit := false, latest := true }
            else { m with orderIndex := some (((0 + j : Nat) : Int) + 1) }
          | none => m) := by
    rw [heq]
    exact applyMoveOps_enumFrom (moveNewOrder db targetPage movieIds) 0 db
      (fun i => decide (movePage db targetPage movieIds = 1)
        && decide (i ∈ movieIds)) hids_nodup
  have hsplitIds : (moveNewOrder db targetPage movieIds).map (fun x => x.id)
      = (moveMoved db movieIds).map (fun x => x.id)
        ++ (moveRemaining db movieIds).map (fun x => x.id) := by
    rw [moveNewOrder_page_one db targetPage movieIds hp1, List.map_append]
  intro m2 hm2
  rw [hdb] at hm2
  obtain ⟨m, hm, hm2eq⟩ := List.mem_map.mp hm2
  refine ⟨m, hm, ?_⟩
  by_cases hmem : m.id ∈ movieIds
  · have hmAll : m ∈ moveAll db :=
      (List.perm_insertionSort rMove db).mem_iff.mpr hm
    have hmMoved : m ∈ moveMoved db movieIds :=
      List.mem_filter.mpr ⟨hmAll, by simpa using hmem⟩
    have hidMoved : m.id ∈ (moveMoved db movieIds).map (fun x => x.id) :=
      List.mem_map_of_mem _ hmMoved
    obtain ⟨j, hfind, hjlt⟩ :=
      @findIdx?_append_left_of_mem _
        ((moveRemaining db movieIds).map (fun x => x.id)) _ hidMoved
    rw [← hsplitIds] at hfind
    refine ⟨j, hfind, ?_⟩
    have hflag : (decide (movePage db targetPage movieIds = 1)
        && decide (m.id ∈ movieIds)) = true := by simp [hp1, hmem]
    rw [hfind] at hm2eq
    simp only [hflag, if_true, Nat.zero_add] at hm2eq
    subst hm2eq
    refine ⟨rfl, rfl, rfl, ?_, ?_⟩
    · intro _
      exact ⟨by simpa using hjlt, rfl, rfl⟩
    · intro hc
      exact absurd hmem hc
  · have hmAll : m ∈ moveAll db :=
      (List.perm_insertionSort rMove db).mem_iff.mpr hm
    have hmRem : m ∈ moveRemaining db movieIds :=
      List.mem_filter.mpr ⟨hmAll, by simpa using hmem⟩
    have hidRem : m.id ∈ (moveRemaining db movieIds).map (fun x => x.id) :=
      List.mem_map_of_mem _ hmRem
    have hidNotMoved : m.id ∉ (moveMoved db movieIds).map (fun x => x.id) := by
      intro hc
      obtain ⟨m3, hm3, hm3id⟩ := List.mem_map.mp hc
      have := (List.mem_filter.mp hm3).2
      rw [hm3id] at this
      exact hmem (by simpa using this)
    obtain ⟨j, hfind, hjge⟩ :=
      findIdx?_append_right_of_mem hidNotMoved hidRem
    rw [← hsplitIds] at hfind
    refine ⟨j, hfind, ?_⟩
    have hflag : (decide (movePage db targetPage movieIds = 1)
        && decide (m.id ∈ movieIds)) = false := by simp [hmem]
    rw [hfind] at hm2eq
    simp only [hflag, Bool.false_eq_true, if_false, Nat.zero_add] at hm2eq
    subst hm2eq
    refine ⟨rfl, rfl, rfl, ?_, ?_⟩
    · intro hc
      exact absurd hc hmem
    · intro _
      exact ⟨by simpa using hjge, rfl, rfl⟩

/-- C5: for every move whose clamped target page is 1 ending successfully,
(i) every moved item ends with promoted (`latest`) = true and pinned
(`previousHit`) = false; (ii) the whole catalog is renumbered to
orderIndex = position + 1 in the new sequence; (iii) on the next public
listing every moved item is in the normal partition, and (iv) the moved
items all precede every non-moved item there, i.e. they appear at the
front of the normal partition. -/
theorem move_to_page_one_effect (db : List Movie) (targetPage : Int)
    (movieIds : List JsStr) (s : MoveStats)
    (hoi : ∀ m ∈ db, m.orderIndex ≠ none)
    (hnd : (db.map (fun m => m.id)).Nodup)
    (hpub : ∀ m ∈ db, m.isPublished ≠ some false)
    (hok : (moveMoviesToPage db targetPage movieIds).result = Except.ok s)
    (hp1 : movePage db targetPage movieIds = 1) :
    (∀ m ∈ (moveMoviesToPage db targetPage movieIds).db,
        m.id ∈ movieIds → m.latest = true ∧ m.previousHit = false)
    ∧ (∀ m ∈ (moveMoviesToPage db targetPage movieIds).db,
        ∀ (j : Nat) (hj : j < (moveNewOrder db targetPage movieIds).length),
          m.id = ((moveNewOrder db targetPage movieIds).get ⟨j, hj⟩).id →
          m.orderIndex = some ((j : Int) + 1))
    ∧ (∀ m ∈ (moveMoviesToPage db targetPage movieIds).db,
        m.id ∈ movieIds →
        m ∈ normalSorted (moveMoviesToPage db targetPage movieIds).db
          (fun x => decide (x.isPublished ≠ some false)))
    ∧ (normalSorted (moveMoviesToPage db targetPage movieIds).db
        (fun x => decide (x.isPublished ≠ some false))).Pairwise
        (fun a b => b.id ∈ movieIds → a.id ∈ movieIds) := by
  rcases move_characterization db targetPage movieIds hoi with
    ⟨e, heq⟩ | ⟨heq, -⟩
  · rw [heq] at hok
    exact absurd hok (by simp)
  have hperm : (moveNewOrder db targetPage movieIds).Perm db :=
    moveNewOrder_perm db targetPage movieIds
  have hids_nodup :
      ((moveNewOrder db targetPage movieIds).map (fun x => x.id)).Nodup :=
    ((hperm.map (fun x => x.id)).nodup_iff).mpr hnd
  have hfacts := move_page_one_doc_facts db targetPage movieIds hnd hp1 heq
  -- (i) moved items get the promoted/unpinned flags
  have hflags : ∀ m ∈ (moveMoviesToPage db targetPage movieIds).db,
      m.id ∈ movieIds → m.latest = true ∧ m.previousHit = false := by
    intro m2 hm2 hmid
    obtain ⟨m, _, j, _, hid, _, _, hmemc, -⟩ := hfacts m2 hm2
    obtain ⟨-, hl, hp⟩ := hmemc (hid ▸ hmid)
    exact ⟨hl, hp⟩
  -- (ii) global renumbering
  have hrenum : ∀ m ∈ (moveMoviesToPage db targetPage movieIds).db,
      ∀ (j : Nat) (hj : j < (moveNewOrder db targetPage movieIds).length),
        m.id = ((moveNewOrder db targetPage movieIds).get ⟨j, hj⟩).id →
        m.orderIndex = some ((j : Int) + 1) := by
    intro m2 hm2 j hj hid
    obtain ⟨m, _, jm, hfind, hid2, hoi2, -, -, -⟩ := hfacts m2 hm2
    obtain ⟨hjm, hgetjm⟩ := findIdx?_pred_getElem hfind
    have hjlen : j < ((moveNewOrder db targetPage movieIds).map
        (fun x => x.id)).length := by simpa using hj
    have hj2 : ((moveNewOrder db targetPage movieIds).map
        (fun x => x.id))[j] = m.id := by
      rw [List.getElem_map]
      rw [← hid2, hid]
      simp [List.get_eq_getElem]
    have : jm = j := by
      have := (@List.Nodup.getElem_inj_iff _ _ hids_nodup jm hjm j hjlen).mp
        (by rw [hgetjm, hj2])
      exact this
    rw [hoi2, this]
  -- membership of moved items in the new normal partition
  have hmemN : ∀ m ∈ (moveMoviesToPage db targetPage movieIds).db,
      m.id ∈ movieIds →
      m ∈ normalSorted (moveMoviesToPage db targetPage movieIds).db
        (fun x => decide (x.isPublished ≠ some false)) := by
    intro m2 hm2 hmid
    obtain ⟨m, hm, j, _, hid, _, hpb, hmemc, -⟩ := hfacts m2 hm2
    obtain ⟨-, -, hp⟩ := hmemc (hid ▸ hmid)
    apply List.mem_insertionSort rNormal |>.mpr
    apply List.mem_filter.mpr
    refine ⟨hm2, ?_⟩
    have : m2.isPublished ≠ some false := by
      rw [hpb]
      exact hpub m hm
    simp [this, hp]
  refine ⟨hflags, hrenum, hmemN, ?_⟩
  -- (iv) moved items form a prefix of the normal partition
  have hsorted : (normalSorted (moveMoviesToPage db targetPage movieIds).db
      (fun x => decide (x.isPublished ≠ some false))).Pairwise rNormal :=
    List.sorted_insertionSort rNormal _
  refine List.Pairwise.imp_of_mem ?_ hsorted
  intro a b ha hb hr hbmem
  by_contra hamem
  have haout : a ∈ (moveMoviesToPage db targetPage movieIds).db :=
    (List.mem_filter.mp ((List.mem_insertionSort rNormal).mp ha)).1
  have hbout : b ∈ (moveMoviesToPage db targetPage movieIds).db :=
    (List.mem_filter.mp ((List.mem_insertionSort rNormal).mp hb)).1
  obtain ⟨ma, _, ja, _, haid, haoi, -, -, hanm⟩ := hfacts a haout
  obtain ⟨mb, _, jb, _, hbid, hboi, -, hbm, -⟩ := hfacts b hbout
  have hbmemb : mb.id ∈ movieIds := hbid ▸ hbmem
  have hamema : ma.id ∉ movieIds := fun hc => hamem (haid ▸ hc)
  obtain ⟨hjb, hbl, -⟩ := hbm hbmemb
  obtain ⟨hja, -, -⟩ := hanm hamema
  have hjab : jb < ja := lt_of_lt_of_le hjb hja
  have hrn : leNormal a b = true := hr
  unfold leNormal at hrn
  by_cases hl : a.latest = b.latest
  · rw [if_pos hl] at hrn
    have hne : a.orderIndex ≠ b.orderIndex := by
      rw [haoi, hboi]
      intro hc
      have : (ja : Int) + 1 = (jb : Int) + 1 := by
        exact Option.some.inj hc
      omega
    rw [if_neg hne] at hrn
    rw [haoi, hboi] at hrn
    unfold ltOptInt at hrn
    simp only [decide_eq_true_eq] at hrn
    omega
  · rw [if_neg hl] at hrn
    rw [hbl] at hrn
    simp at hrn

/-- Witness for `move_to_page_one_effect`: moving the second of two movies
to page 1. -/
theorem move_to_page_one_effect_witness :
    (∀ m ∈ (moveMoviesToPage
        [mkMovie [Char.ofNat 97] (some 1), mkMovie [Char.ofNat 98] (some 2)]
        1 [[Char.ofNat 98]]).db,
        m.id ∈ [[Char.ofNat 98]] → m.latest = true ∧ m.previousHit = false)
    ∧ (∀ m ∈ (moveMoviesToPage
        [mkMovie [Char.ofNat 97] (some 1), mkMovie [Char.ofNat 98] (some 2)]
        1 [[Char.ofNat 98]]).db,
        ∀ (j : Nat) (hj : j < (moveNewOrder
            [mkMovie [Char.ofNat 97] (some 1), mkMovie [Char.ofNat 98] (some 2)]
            1 [[Char.ofNat 98]]).length),
          m.id = ((moveNewOrder
              [mkMovie [Char.ofNat 97] (some 1), mkMovie [Char.ofNat 98] (some 2)]
              1 [[Char.ofNat 98]]).get ⟨j, hj⟩).id →
          m.orderIndex = some ((j : Int) + 1))
    ∧ (∀ m ∈ (moveMoviesToPage
        [mkMovie [Char.ofNat 97] (some 1), mkMovie [Char.ofNat 98] (some 2)]
        1 [[Char.ofNat 98]]).db,
        m.id ∈ [[Char.ofNat 98]] →
        m ∈ normalSorted (moveMoviesToPage
            [mkMovie [Char.ofNat 97] (some 1), mkMovie [Char.ofNat 98] (some 2)]
            1 [[Char.ofNat 98]]).db
          (fun x => decide (x.isPublished ≠ some false)))
    ∧ (normalSorted (moveMoviesToPage
        [mkMovie [Char.ofNat 97] (some 1), mkMovie [Char.ofNat 98] (some 2)]
        1 [[Char.ofNat 98]]).db
        (fun x => decide (x.isPublished ≠ some false))).Pairwise
        (fun a b => b.id ∈ [[Char.ofNat 98]] → a.id ∈ [[Char.ofNat 98]]) :=
  move_to_page_one_effect
    [mkMovie [Char.ofNat 97] (some 1), mkMovie [Char.ofNat 98] (some 2)]
    1 [[Char.ofNat 98]] ⟨2, 1, 1⟩
    (by decide) (by decide) (by decide) (by decide) (by decide)

/-! ### SlugAssigner (`slugifyNameAndYear`, `generateUniqueSlug`) -/

/-- ASCII `toLowerCase`; characters outside A-Z pass through (faithful to
JS for every character these claims exercise). -/
def jsToLower (c : Char) : Char :=
  if 64 < c.toNat ∧ c.toNat < 91 then Char.ofNat (c.toNat + 32) else c

/-- The character class `[a-z0-9\s-]` kept by the slug strip
(`replace(/[^a-z0-9\s\-]/g, '')`). -/
def isSlugKeep (c : Char) : Bool :=
  (decide (96 < c.toNat ∧ c.toNat < 123)
    || decide (47 < c.toNat ∧ c.toNat < 58))
    || (isJsWs c || decide (c = '-'))

/-- `replace(/X+/g, r)`: collapse every maximal run of `isRun`-characters
into the single character `r`.  `prevRun` says whether the previous
character was part of a run. -/
def collapseGo (isRun : Char → Bool) (r : Char) (prevRun : Bool) :
    JsStr → JsStr
  | [] => []
  | c :: cs =>
    if isRun c then
      if prevRun then collapseGo isRun r true cs
      else r :: collapseGo isRun r true cs
    else c :: collapseGo isRun r false cs

def collapseRuns (isRun : Char → Bool) (r : Char) (s : JsStr) : JsStr :=
  collapseGo isRun r false s

/-- `slugifyNameAndYear(name, year)`: slug text from the name ONLY — the
`year` parameter is accepted and ignored, exactly as in the source:
lowercase, trim, strip to `[a-z0-9\s-]`, whitespace runs to `-`, collapse
`-` runs. -/
def slugifyNameAndYear (name : JsStr) (year : Option Int) : JsStr :=
  if name.isEmpty then []
  else
    collapseRuns (fun c => decide (c = '-')) '-'
      (collapseRuns isJsWs '-'
        ((jsTrim ((jsTrim name).map jsToLower)).filter isSlugKeep))

/-- Decimal digit character. -/
def digitChar (d : Nat) : Char := Char.ofNat (48 + d)

/-- Decimal rendering of a `Nat` (`${counter}`), fueled so that it
evaluates by kernel reduction; `natDigits` supplies sufficient fuel. -/
def natDigitsGo : Nat → Nat → JsStr
  | 0, _ => []
  | fuel + 1, n =>
    if n < 10 then [digitChar n]
    else natDigitsGo fuel (n / 10) ++ [digitChar (n % 10)]

def natDigits (n : Nat) : JsStr := natDigitsGo (n + 1) n

/-- Decimal valuation, left inverse of `natDigits`. -/
def digitsVal (s : JsStr) : Nat :=
  s.foldl (fun a c => a * 10 + (c.toNat - 48)) 0

/-- The probe loop's k-th candidate: `base`, `base-2`, `base-3`, ... -/
def slugCandidate (base : JsStr) : Nat → JsStr
  | 0 => base
  | k + 1 => base ++ '-' :: natDigits (k + 2)

/-- The slugs of every OTHER document: the probe query is
`{slug, _id: {$ne: existingId}}` when an existing id is supplied and
`{slug}` otherwise. -/
def slugOthers (store : List (JsStr × JsStr)) (existingId : Option JsStr) :
    List JsStr :=
  store.filterMap (fun q => if existingId = some q.1 then none else some q.2)

/-- `baseSlug`: the derived candidate, or on an empty candidate the
existing id when one was passed, else the empty string. -/
def slugBase (name : JsStr) (year : Option Int) (existingId : Option JsStr) :
    JsStr :=
  if (slugifyNameAndYear name year).isEmpty then
    match existingId with
    | some i => i
    | none => []
  else slugifyNameAndYear name year

/-- The unbounded JS `while (true)` probe, embedded with fuel; `fuel =
|others| + 1` always suffices (`exists_free_candidate`), so the fueled
function agrees with the JS loop. -/
def probeSlug (occ : List JsStr) (base : JsStr) : Nat → Nat → JsStr
  | 0, k => slugCandidate base k
  | fuel + 1, k =>
    if slugCandidate base k ∈ occ then probeSlug occ base fuel (k + 1)
    else slugCandidate base k

/-- `generateUniqueSlug(name, year, existingId)` over the `(_id, slug)`
projection of the collection. -/
def generateUniqueSlug (store : List (JsStr × JsStr)) (name : JsStr)
    (year : Option Int) (existingId : Option JsStr) : JsStr :=
  probeSlug (slugOthers store existingId) (slugBase name year existingId)
    ((slugOthers store existingId).length + 1) 0

/-! ### Facts about the slug engine -/

theorem digitChar_toNat {d : Nat} (h : d < 10) :
    (digitChar d).toNat = 48 + d := by
  interval_cases d <;> decide

theorem digitsVal_append_digit (s : JsStr) (c : Char) :
    digitsVal (s ++ [c]) = digitsVal s * 10 + (c.toNat - 48) := by
  unfold digitsVal
  rw [List.foldl_append]
  rfl

theorem digitsVal_natDigitsGo :
    ∀ (fuel n : Nat), n < fuel → digitsVal (natDigitsGo fuel n) = n
  | 0, n, h => absurd h (Nat.not_lt_zero n)
  | fuel + 1, n, h => by
    unfold natDigitsGo
    by_cases h10 : n < 10
    · rw [if_pos h10]
      unfold digitsVal
      simp [List.foldl_cons, digitChar_toNat h10]
    · rw [if_neg h10]
      have hdiv : n / 10 < fuel := by
        have := Nat.div_lt_self (by omega : 0 < n) (by omega : 1 < 10)
        omega
      rw [digitsVal_append_digit, digitsVal_natDigitsGo fuel (n / 10) hdiv,
        digitChar_toNat (Nat.mod_lt n (by omega))]
      omega

theorem digitsVal_natDigits (n : Nat) : digitsVal (natDigits n) = n :=
  digitsVal_natDigitsGo (n + 1) n (Nat.lt_succ_self n)

theorem natDigits_inj {a b : Nat} (h : natDigits a = natDigits b) : a = b := by
  have := congrArg digitsVal h
  rwa [digitsVal_natDigits, digitsVal_natDigits] at this

theorem slugCandidate_inj (base : JsStr) :
    ∀ {i j : Nat}, slugCandidate base i = slugCandidate base j → i = j := by
  intro i j h
  match i, j with
  | 0, 0 => rfl
  | 0, k + 1 =>
    exfalso
    have := congrArg List.length h
    simp [slugCandidate] at this
  | k + 1, 0 =>
    exfalso
    have := congrArg List.length h
    simp [slugCandidate] at this
  | k + 1, l + 1 =>
    unfold slugCandidate at h
    have h2 := List.append_cancel_left h
    have h3 := List.tail_eq_of_cons_eq h2
    have := natDigits_inj h3
    omega

/-- Pigeonhole: among the first `|occ| + 1` candidates one is free. -/
theorem exists_free_candidate (base : JsStr) (occ : List JsStr) :
    ∃ k, k ≤ occ.length ∧ slugCandidate base k ∉ occ := by
  by_contra hcon
  push_neg at hcon
  have hsub : (Finset.range (occ.length + 1)).image (slugCandidate base)
      ⊆ occ.toFinset := by
    intro s hs
    obtain ⟨k, hk, rfl⟩ := Finset.mem_image.mp hs
    exact List.mem_toFinset.mpr
      (hcon k (Nat.lt_succ_iff.mp (Finset.mem_range.mp hk)))
  have hcard1 : ((Finset.range (occ.length + 1)).image
      (slugCandidate base)).card = occ.length + 1 := by
    rw [Finset.card_image_of_injective _ (fun a b => slugCandidate_inj base),
      Finset.card_range]
  have hcard2 := Finset.card_le_card hsub
  have hcard3 := List.toFinset_card_le occ
  omega

theorem probeSlug_free (occ : List JsStr) (base : JsStr) :
    ∀ (fuel k : Nat),
      (∃ j, k ≤ j ∧ j ≤ k + fuel ∧ slugCandidate base j ∉ occ) →
      probeSlug occ base fuel k ∉ occ
  | 0, k, ⟨j, hj1, hj2, hj3⟩ => by
    have : j = k := by omega
    subst this
    exact hj3
  | fuel + 1, k, ⟨j, hj1, hj2, hj3⟩ => by
    unfold probeSlug
    by_cases h : slugCandidate base k ∈ occ
    · rw [if_pos h]
      apply probeSlug_free occ base fuel (k + 1)
      have hjk : j ≠ k := fun hc => (hc ▸ hj3) h
      exact ⟨j, by omega, by omega, hj3⟩
    · rw [if_neg h]
      exact h

/-- C7: slug assignment always returns a slug no other item currently
holds (probing base, base-2, base-3, ... until free); in particular two
items with the same base slug end up with "title" and "title-2". -/
theorem generateUniqueSlug_unique :
    (∀ (store : List (JsStr × JsStr)) (name : JsStr) (year : Option Int)
        (existingId : Option JsStr), ∀ q ∈ store,
        existingId ≠ some q.1 →
        q.2 ≠ generateUniqueSlug store name year existingId)
    ∧ generateUniqueSlug
        [([Char.ofNat 120], "title".toList)] "Title".toList none
        (some [Char.ofNat 121])
      = "title-2".toList := by
  constructor
  · intro store name year existingId q hq hne hc
    have hfree : generateUniqueSlug store name year existingId
        ∉ slugOthers store existingId := by
      unfold generateUniqueSlug
      apply probeSlug_free
      obtain ⟨k, hk, hkfree⟩ := exists_free_candidate
        (slugBase name year existingId) (slugOthers store existingId)
      exact ⟨k, by omega, by omega, hkfree⟩
    apply hfree
    apply List.mem_filterMap.mpr
    refine ⟨q, hq, ?_⟩
    rw [if_neg hne, hc]
  · decide

/-- Witness for `generateUniqueSlug_unique`: the other item's slug
"title" differs from the newly assigned "title-2". -/
theorem generateUniqueSlug_unique_witness :
    "title".toList ≠ generateUniqueSlug
      [([Char.ofNat 120], "title".toList)] "Title".toList none
      (some [Char.ofNat 121]) :=
  generateUniqueSlug_unique.1
    [([Char.ofNat 120], "title".toList)] "Title".toList none
    (some [Char.ofNat 121]) ([Char.ofNat 120], "title".toList)
    (by decide) (by decide)

/-- Modelled from the claim's words (for refutation): the same slug
pipeline applied after folding accents to their base letters. -/
def foldAccent (c : Char) : Char :=
  if c = 'é' then 'e'
  else if c = 'è' then 'e'
  else if c = 'á' then 'a'
  else if c = 'à' then 'a'
  else if c = 'ü' then 'u'
  else if c = 'ö' then 'o'
  else if c = 'ñ' then 'n'
  else if c = 'ç' then 'c'
  else c

/-- Modelled from the claim's words (for refutation): fold accents, then
lowercase/strip/collapse. -/
def claimSlugify (name : JsStr) (year : Option Int) : JsStr :=
  slugifyNameAndYear (name.map foldAccent) year

/-- C6 counterexample: the source never folds accents — it strips them.
"Café" slugifies to "caf", not the claim's "cafe".  Also, an empty
candidate falls back to the empty string, not "the item's own id", when no
existing id is supplied (as in `createMovie`, which calls
`generateUniqueSlug(name, year)` without an id). -/
theorem slugify_accent_counterexample :
    slugifyNameAndYear "Café".toList none = "caf".toList
    ∧ claimSlugify "Café".toList none = "cafe".toList
    ∧ slugifyNameAndYear "Café".toList none ≠ claimSlugify "Café".toList none
    ∧ slugBase "é".toList none none = [] := by
  refine ⟨by decide, by decide, by decide, by decide⟩

theorem mem_collapseGo (isRun : Char → Bool) (r : Char) :
    ∀ (prev : Bool) (s : JsStr) (c : Char), c ∈ collapseGo isRun r prev s →
      c = r ∨ (c ∈ s ∧ isRun c = false)
  | _, [], c, h => absurd h (List.not_mem_nil c)
  | prev, a :: s, c, h => by
    unfold collapseGo at h
    by_cases ha : isRun a = true
    · rw [if_pos ha] at h
      cases prev with
      | true =>
        rw [if_pos rfl] at h
        rcases mem_collapseGo isRun r true s c h with h1 | ⟨h2, h3⟩
        · exact Or.inl h1
        · exact Or.inr ⟨List.mem_cons_of_mem a h2, h3⟩
      | false =>
        rw [if_neg (by simp)] at h
        rcases List.mem_cons.mp h with rfl | h2
        · exact Or.inl rfl
        · rcases mem_collapseGo isRun r true s c h2 with h1 | ⟨h3, h4⟩
          · exact Or.inl h1
          · exact Or.inr ⟨List.mem_cons_of_mem a h3, h4⟩
    · rw [if_neg ha] at h
      rcases List.mem_cons.mp h with rfl | h2
      · exact Or.inr ⟨List.mem_cons_self c s,
          Bool.not_eq_true _ ▸ ha⟩
      · rcases mem_collapseGo isRun r false s c h2 with h1 | ⟨h3, h4⟩
        · exact Or.inl h1
        · exact Or.inr ⟨List.mem_cons_of_mem a h3, h4⟩

/-- C6 amended: the slug candidate is derived from the name only — the
year argument never influences the result; characters outside
`[a-z0-9, whitespace, hyphen]` after ASCII-lowercasing (accented letters
included) are stripped, not folded, so every output character is a
lowercase letter, a digit, or a hyphen; and an empty candidate falls back
to the existing id when one is passed (as every update/read call site
does) and to the empty string when none is (as at creation). -/
theorem slugify_source_behavior :
    (∀ (name : JsStr) (y1 y2 : Option Int),
        slugifyNameAndYear name y1 = slugifyNameAndYear name y2)
    ∧ (∀ (name : JsStr) (y : Option Int), ∀ c ∈ slugifyNameAndYear name y,
        (97 ≤ c.toNat ∧ c.toNat ≤ 122) ∨ (48 ≤ c.toNat ∧ c.toNat ≤ 57)
          ∨ c = '-')
    ∧ (∀ (name : JsStr) (y : Option Int) (i : JsStr),
        (slugifyNameAndYear name y).isEmpty = true →
        slugBase name y (some i) = i)
    ∧ (∀ (name : JsStr) (y : Option Int),
        (slugifyNameAndYear name y).isEmpty = true →
        slugBase name y none = []) := by
  refine ⟨fun name y1 y2 => rfl, ?_, ?_, ?_⟩
  · intro name y c hc
    unfold slugifyNameAndYear at hc
    by_cases hne : name.isEmpty = true
    · rw [if_pos hne] at hc
      exact absurd hc (List.not_mem_nil c)
    · rw [if_neg hne] at hc
      unfold collapseRuns at hc
      rcases mem_collapseGo _ '-' false _ c hc with h1 | ⟨h2, h3⟩
      · exact Or.inr (Or.inr h1)
      · rcases mem_collapseGo _ '-' false _ c h2 with h4 | ⟨h5, h6⟩
        · exact Or.inr (Or.inr h4)
        · have hkeep : isSlugKeep c = true := (List.mem_filter.mp h5).2
          unfold isSlugKeep at hkeep
          simp only [Bool.or_eq_true, decide_eq_true_eq, h6,
            Bool.false_eq_true, false_or] at hkeep
          rcases hkeep with (h | h) | h
          · exact Or.inl (by omega)
          · exact Or.inr (Or.inl (by omega))
          · exact Or.inr (Or.inr h)
  · intro name y i he
    unfold slugBase
    rw [if_pos he]
  · intro name y he
    unfold slugBase
    rw [if_pos he]

/-- Witness for `slugify_source_behavior`. -/
theorem slugify_source_behavior_witness :
    slugifyNameAndYear "Café".toList (some 2020)
      = slugifyNameAndYear "Café".toList none
    ∧ ((97 ≤ ("a b".toList.headI).toNat ∧ ("a b".toList.headI).toNat ≤ 122)
        ∨ (48 ≤ ("a b".toList.headI).toNat ∧ ("a b".toList.headI).toNat ≤ 57)
        ∨ ("a b".toList.headI) = '-')
    ∧ slugBase "é".toList none (some [Char.ofNat 120]) = [Char.ofNat 120]
    ∧ slugBase "é".toList none none = [] :=
  ⟨slugify_source_behavior.1 "Café".toList (some 2020) none,
   slugify_source_behavior.2.1 "a b".toList none "a b".toList.headI
     (by decide),
   slugify_source_behavior.2.2.1 "é".toList none [Char.ofNat 120] (by decide),
   slugify_source_behavior.2.2.2 "é".toList none (by decide)⟩

/-! ### MetadataEnrichmentCache, ratings sub-cache
(`utils/externalRatingsService.js`)

The HTTP/JSON layer is abstracted: an OMDb request is the query-string
payload (`OmdbQuery`), the provider is a function from queries to
`Except` (an `error` covers a thrown fetch/timeout, a non-OK status and a
`Response: 'False'` body uniformly — all are turned into a non-throwing
`TryRes` by `tryFetchJson`, the JS `try/catch`), and a successful body
carries the parsed fields (`'N/A'`/unparsable numerics already `none`,
matching the `toNumber`/`parseRottenPercent` guards). -/

def msPerDay : Int := 24 * 60 * 60 * 1000

/-- Default `EXTERNAL_RATINGS_TTL_DAYS`. -/
def TTL_DAYS : Int := 7

/-- Default `TMDB_CREDITS_TTL_DAYS` (see the credits service). -/
def TMDB_CREDITS_TTL_DAYS : Int := 30

/-- `https://www.imdb.com/title/${imdbId}/`, empty for an empty id. -/
def imdbUrlFromId (imdbId : JsStr) : JsStr :=
  if imdbId.isEmpty then []
  else "https://www.imdb.com/title/".toList ++ imdbId ++ "/".toList

/-- `https://www.rottentomatoes.com/search?search=${title}` (the
percent-encoding is part of the external URL rendering, not modelled). -/
def rottenUrlFromTitle (title : JsStr) : JsStr :=
  if title.isEmpty then []
  else "https://www.rottentomatoes.com/search?search=".toList ++ title

/-- ASCII case-insensitive character comparison (the regex `/i` flag). -/
def charCI (a b : Char) : Bool := decide (jsToLower a = jsToLower b)

/-- Case-insensitive prefix test of the pattern (first argument). -/
def startsWithCI : JsStr → JsStr → Bool
  | [], _ => true
  | _ :: _, [] => false
  | p :: ps, c :: cs => charCI p c && startsWithCI ps cs

def isAsciiDigit (c : Char) : Bool := decide (47 < c.toNat ∧ c.toNat < 58)

/-- Try to match `title\/(tt\d{5,10})` (case-insensitively) at the head of
`s`; returns the captured group with its original characters. -/
def matchTitleAt (s : JsStr) : Option JsStr :=
  if startsWithCI "title/tt".toList s then
    let ds := ((s.drop 8).takeWhile isAsciiDigit).take 10
    if 5 ≤ ds.length then some ((s.drop 6).take 2 ++ ds) else none
  else none

/-- `extractImdbIdFromUrl`: first match of `/title\/(tt\d{5,10})/i`, else
the empty string. -/
def extractImdbIdFromUrl : JsStr → JsStr
  | [] => []
  | c :: cs =>
    match matchTitleAt (c :: cs) with
    | some r => r
    | none => extractImdbIdFromUrl cs

/-- `movieDoc.externalRatings?.imdb?.url ?? ''`. -/
def storedImdbUrl (m : Movie) : JsStr :=
  match m.externalRatings with
  | some er => er.imdb.url
  | none => []

/-- `movieDoc.externalRatingsUpdatedAt ? new Date(...).getTime() : 0`. -/
def ratingsTs (m : Movie) : Int :=
  match m.externalRatingsUpdatedAt with
  | some t => t
  | none => 0

/-- `shouldRefresh(movieDoc, ttlDays)` at time `now`: an imdbId whose
stored URL is missing or mismatched forces a refresh, else a missing
timestamp, else the TTL. -/
def shouldRefresh (now : Int) (m : Movie) (ttlDays : Int) : Bool :=
  let imdbId := jsTrim m.imdbId
  if ¬ imdbId.isEmpty then
    let stored := extractImdbIdFromUrl (storedImdbUrl m)
    if stored.isEmpty then true
    else if stored ≠ imdbId then true
    else if ratingsTs m = 0 then true
    else decide (now - ratingsTs m > ttlDays * msPerDay)
  else
    if ratingsTs m = 0 then true
    else decide (now - ratingsTs m > ttlDays * msPerDay)

/-- An entry of an OMDb search response. -/
structure SearchItem where
  imdbID : JsStr
  year : JsStr
  typ : JsStr
  deriving Repr, DecidableEq

/-- The parsed body of a successful OMDb response. -/
structure OmdbJson where
  imdbID : JsStr
  imdbRating : Option ℚ
  imdbVotes : Option ℚ
  ratings : List (JsStr × Option ℚ)
  search : List SearchItem
  deriving Repr, DecidableEq

inductive TryRes
  | ok (j : OmdbJson)
  | err (msg : JsStr)
  deriving Repr, DecidableEq

/-- An OMDb request: the query parameters set by `buildOmdbUrl` /
`buildOmdbSearchUrl`. -/
structure OmdbQuery where
  byId : Option JsStr
  title : JsStr
  year : Option JsStr
  typ : Option JsStr
  isSearch : Bool
  deriving Repr, DecidableEq

/-- `tryFetchJson`: one provider round-trip; the `try/catch` turns every
thrown error / failed response into a plain value, so no provider failure
ever escapes. -/
def tryFetchJson (provider : OmdbQuery → Except JsStr OmdbJson)
    (q : OmdbQuery) : TryRes :=
  match provider q with
  | .ok j => .ok j
  | .error e => .err e

/-- `[0-9A-Za-z_]`, the regex word class for `\b`. -/
def isWordChar (c : Char) : Bool :=
  isAsciiDigit c || decide (64 < c.toNat ∧ c.toNat < 91)
    || decide (96 < c.toNat ∧ c.toNat < 123) || decide (c = '_')

/-- Does `\(?\b{y}\b\)?\s*$` match exactly at the head of `s`
(`prevNonWord`: the previous character, if any, is a non-word char)? -/
def yearSuffixMatchAt (y : JsStr) (prevNonWord : Bool) (s : JsStr) : Bool :=
  let core : JsStr → Bool := fun s1 =>
    if y.isPrefixOf s1 then
      let s2 := s1.drop y.length
      let s3 := if s2.head? = some ')' then s2.tail else s2
      s3.all isJsWs
    else false
  if s.head? = some '(' then core s.tail
  else prevNonWord && core s

/-- Offset of the first position where the year-suffix regex matches. -/
def stripYearGo (y : JsStr) (prevNonWord : Bool) : JsStr → Option Nat
  | [] => none
  | c :: cs =>
    if yearSuffixMatchAt y prevNonWord (c :: cs) then some 0
    else
      match stripYearGo y (!(isWordChar c)) cs with
      | some k => some (k + 1)
      | none => none

/-- `t.replace(new RegExp(`\\(?\\b${y}\\b\\)?\\s*$`), '')`. -/
def replaceYearSuffix (y : JsStr) (s : JsStr) : JsStr :=
  match stripYearGo y true s with
  | some k => s.take k
  | none => s

/-- `String(n)` for an integer. -/
def intDigits (n : Int) : JsStr :=
  if n < 0 then '-' :: natDigits n.natAbs else natDigits n.toNat

/-- `String(year).trim()` when `year` is truthy, else the empty string. -/
def yearStr (year : Option Int) : JsStr :=
  match year with
  | some n => if n = 0 then [] else jsTrim (intDigits n)
  | none => []

/-- `normalizeTitleForOmdb(title, year)`: strip a trailing "(2025)" or
"2025", then collapse whitespace. -/
def normalizeTitleForOmdb (title : JsStr) (year : Option Int) : JsStr :=
  let t := jsTrim title
  if t.isEmpty then []
  else
    let y := yearStr year
    let t2 := if ¬ y.isEmpty then jsTrim (replaceYearSuffix y t) else t
    jsTrim (collapseRuns isJsWs ' ' t2)

/-- `buildOmdbUrl`: by-id lookup when an imdbId is given, else a title
lookup with optional `y` and `type` parameters. -/
def buildOmdbUrl (imdbId : Option JsStr) (title : JsStr) (year : Option Int)
    (typ : Option JsStr) (includeYear : Bool) : OmdbQuery :=
  match imdbId with
  | some i =>
    { byId := some i, title := [], year := none, typ := none,
      isSearch := false }
  | none =>
    { byId := none
      title := normalizeTitleForOmdb title year
      year := if includeYear ∧ ¬ (yearStr year).isEmpty
        then some (yearStr year) else none
      typ := typ
      isSearch := false }

/-- `buildOmdbSearchUrl` (the constant `page=1` parameter is omitted). -/
def buildOmdbSearchUrl (title : JsStr) (year : Option Int)
    (typ : Option JsStr) (includeYear : Bool) : OmdbQuery :=
  { byId := none
    title := normalizeTitleForOmdb title year
    year := if includeYear ∧ ¬ (yearStr year).isEmpty
      then some (yearStr year) else none
    typ := typ
    isSearch := true }

/-- `yearMatches(candidateYear, targetYear)`: exact match, or a series
range "2011–2019" / "2011-2019" starting at the target year. -/
def yearMatches (candidateYear targetYear : JsStr) : Bool :=
  let cy := jsTrim candidateYear
  let ty := jsTrim targetYear
  if cy.isEmpty || ty.isEmpty then false
  else
    decide (cy = ty) || (ty ++ ['–']).isPrefixOf cy
      || (ty ++ ['-']).isPrefixOf cy

/-- `pickBestSearchResult(results, year, type)`. -/
def pickBestSearchResult (results : List SearchItem) (year : Option Int)
    (typ : JsStr) : Option SearchItem :=
  let y := yearStr year
  let t := typ.map jsToLower
  let filtered0 := results.filter (fun r => ¬ r.imdbID.isEmpty)
  let filtered :=
    if ¬ t.isEmpty then
      let typeFiltered := filtered0.filter
        (fun r => decide (r.typ.map jsToLower = t))
      if ¬ typeFiltered.isEmpty then typeFiltered else filtered0
    else filtered0
  if ¬ y.isEmpty then
    match filtered.find? (fun r => yearMatches r.year y) with
    | some r => some r
    | none => filtered.head?
  else filtered.head?

/-- The parsed Rotten Tomatoes entry of `data.Ratings`. -/
def rtOf (d : OmdbJson) : Option ℚ :=
  match d.ratings.find?
      (fun r => decide (r.1.map jsToLower = "rotten tomatoes".toList)) with
  | some r => r.2
  | none => none

/-- `movieDoc.type === 'WebSeries' ? 'series' : 'movie'`. -/
def omdbTypeOf (m : Movie) : JsStr :=
  if m.typ = "WebSeries".toList then "series".toList else "movie".toList

/-- First successful fetch of the direct-lookup URL list. -/
def firstOkFetch (provider : OmdbQuery → Except JsStr OmdbJson) :
    List OmdbQuery → Option OmdbJson
  | [] => none
  | q :: qs =>
    match tryFetchJson provider q with
    | .ok j => some j
    | .err _ => firstOkFetch provider qs

/-- The search fallback: for each search URL, pick the best result and
fetch its detail record; first success wins. -/
def searchFallback (provider : OmdbQuery → Except JsStr OmdbJson)
    (title : JsStr) (year : Option Int) (omdbType : JsStr) :
    List OmdbQuery → Option OmdbJson
  | [] => none
  | sq :: rest =>
    match tryFetchJson provider sq with
    | .err _ => searchFallback provider title year omdbType rest
    | .ok sj =>
      match pickBestSearchResult sj.search year omdbType with
      | none => searchFallback provider title year omdbType rest
      | some best =>
        if best.imdbID.isEmpty then
          searchFallback provider title year omdbType rest
        else
          match tryFetchJson provider
              (buildOmdbUrl (some best.imdbID) title year none false) with
          | .ok dj => some dj
          | .err _ => searchFallback provider title year omdbType rest

/-- Result record of the ensure functions (`{updated, reason}`; the
auxiliary `error`/`imdbId` response fields are omitted). -/
structure EnsureRes where
  updated : Bool
  reason : JsStr
  deriving Repr, DecidableEq

/-- `ensureMovieExternalRatings(movieDoc)`: refresh gate, direct lookups,
search fallback, then either merge the new ratings and stamp, or stamp
the failed attempt (clearing the imdb numbers to null when an imdbId is
set, so `shouldRefresh` stops refetching). -/
def ensureMovieExternalRatings (hasKey : Bool) (ttlDays : Int)
    (provider : OmdbQuery → Except JsStr OmdbJson) (now : Int) (m : Movie) :
    Movie × EnsureRes :=
  if ¬ hasKey then (m, ⟨false, "missing_omdb_key".toList⟩)
  else if ¬ shouldRefresh now m ttlDays then (m, ⟨false, "fresh".toList⟩)
  else
    let title := m.name
    let year := m.year
    let imdbId := jsTrim m.imdbId
    let omdbType := omdbTypeOf m
    if title.isEmpty ∧ imdbId.isEmpty then
      (m, ⟨false, "no_title_or_imdb".toList⟩)
    else
      let urls : List OmdbQuery :=
        buildOmdbUrl (if imdbId.isEmpty then none else some imdbId) title
          year (if imdbId.isEmpty then some omdbType else none) true
        :: (if imdbId.isEmpty then
              [buildOmdbUrl none title year (some omdbType) false]
            else [])
      let direct := firstOkFetch provider urls
      let data : Option OmdbJson :=
        match direct with
        | some d => some d
        | none =>
          if imdbId.isEmpty ∧ ¬ title.isEmpty then
            searchFallback provider title year omdbType
              [buildOmdbSearchUrl title year (some omdbType) true,
               buildOmdbSearchUrl title year (some omdbType) false]
          else none
      match data with
      | none =>
        let m1 := { m with externalRatingsUpdatedAt := some now }
        let erFail : ExtRatings :=
          ⟨⟨none, none, imdbUrlFromId imdbId⟩, ⟨none, rottenUrlFromTitle title⟩⟩
        let m2 :=
          if ¬ imdbId.isEmpty then { m1 with externalRatings := some erFail }
          else m1
        (m2, ⟨false, "omdb_not_found".toList⟩)
      | some d =>
        let resolvedImdbId :=
          jsTrim (if d.imdbID.isEmpty then imdbId else d.imdbID)
        let newImdbId := if m.imdbId.isEmpty then resolvedImdbId else m.imdbId
        let urlId := if resolvedImdbId.isEmpty then newImdbId
          else resolvedImdbId
        let erOk : ExtRatings :=
          ⟨⟨d.imdbRating, d.imdbVotes, imdbUrlFromId urlId⟩,
           ⟨rtOf d, rottenUrlFromTitle title⟩⟩
        ({ m with
            imdbId := newImdbId
            externalRatings := some erOk
            externalRatingsUpdatedAt := some now },
         ⟨true, []⟩)

/-! ### MetadataEnrichmentCache, credits sub-cache (the TMDb service)

`fetchTmdbCreditsForMovie` (the id-lookup → alternate-id → title-search
cascade) is a separate function whose outcome record is taken as a
parameter here; the claims under verification concern only the staleness
gate and the ensure wrapper. -/

/-- `movieDoc.tmdbCreditsUpdatedAt ? getTime : 0`. -/
def creditsTs (m : Movie) : Int :=
  match m.tmdbCreditsUpdatedAt with
  | some t => t
  | none => 0

/-- `shouldRefreshTmdbCredits(movieDoc, ttlDays)` at time `now`
(`casts` entries are abstracted to their names; only emptiness is read). -/
def shouldRefreshTmdbCredits (now : Int) (m : Option Movie)
    (ttlDays : Int) : Bool :=
  match m with
  | none => false
  | some doc =>
    if doc.casts.isEmpty then true
    else if creditsTs doc = 0 then true
    else decide (now - creditsTs doc > ttlDays * msPerDay)

/-- Outcome record of `fetchTmdbCreditsForMovie`. -/
structure TmdbFetchRes where
  found : Bool
  tmdbId : Option Int
  tmdbType : JsStr
  casts : List JsStr
  director : JsStr
  reason : JsStr
  deriving Repr, DecidableEq

/-- `ensureMovieTmdbCredits(movieDoc, {force, castLimit})`: gate, fetch,
stamp the attempt unconditionally, then merge on success. -/
def ensureMovieTmdbCredits (hasKey : Bool) (ttlDays : Int)
    (fetchRes : TmdbFetchRes) (now : Int) (m : Movie) (force : Bool)
    (castLimit : Nat) : Movie × EnsureRes :=
  if ¬ hasKey then (m, ⟨false, "missing_tmdb_key".toList⟩)
  else if ¬ force ∧ ¬ shouldRefreshTmdbCredits now (some m) ttlDays then
    (m, ⟨false, "fresh".toList⟩)
  else
    let m1 := { m with tmdbCreditsUpdatedAt := some now }
    if ¬ fetchRes.found ∨ fetchRes.tmdbId = none then
      (m1, ⟨false,
        if fetchRes.reason.isEmpty then "not_found".toList
        else fetchRes.reason⟩)
    else
      let m2 :=
        { m1 with
          tmdbId := fetchRes.tmdbId
          tmdbType := fetchRes.tmdbType }
      let m3 :=
        if ¬ fetchRes.casts.isEmpty then
          { m2 with casts := fetchRes.casts.take castLimit }
        else m2
      let m4 :=
        if ¬ fetchRes.director.isEmpty then
          { m3 with director := fetchRes.director }
        else m3
      (m4, ⟨true, []⟩)

/-- Modelled from the claim's words (for refutation): refresh exactly when
no cached value exists, or no refresh timestamp exists, or the TTL has
expired, or the stored external id mismatches the current one. -/
def claimShouldRefresh (now : Int) (m : Movie) (ttlDays : Int) : Bool :=
  decide (m.externalRatings = none)
  || decide (m.externalRatingsUpdatedAt = none)
  || decide (now - ratingsTs m > ttlDays * msPerDay)
  || decide (extractImdbIdFromUrl (storedImdbUrl m) ≠ jsTrim m.imdbId)

/-! ### Settling the staleness claims -/

/-- C8 counterexample: a record with NO cached value at all
(`externalRatings` absent), no external id, and a fresh stamp.  The claim
("true exactly when no cached value exists yet, or ...") demands `true`;
the code follows the TTL only and returns `false` — by design, so a
failed refresh attempt is not retried on every view. -/
theorem shouldRefresh_no_cached_value_counterexample :
    shouldRefresh 1000
        { mkMovie [Char.ofNat 99] none with
          externalRatingsUpdatedAt := some 1000 } 7 = false
    ∧ ({ mkMovie [Char.ofNat 99] none with
          externalRatingsUpdatedAt := some 1000 } : Movie).externalRatings
        = none
    ∧ claimShouldRefresh 1000
        { mkMovie [Char.ofNat 99] none with
          externalRatingsUpdatedAt := some 1000 } 7 = true
    ∧ shouldRefresh 1000
        { mkMovie [Char.ofNat 99] none with
          externalRatingsUpdatedAt := some 1000 } 7
      ≠ claimShouldRefresh 1000
        { mkMovie [Char.ofNat 99] none with
          externalRatingsUpdatedAt := some 1000 } 7 := by
  refine ⟨by decide, by decide, by decide, by decide⟩

/-- C8 amended: exact staleness characterizations.  Ratings: refresh iff a
non-empty current imdbId has a missing or mismatched id stored in the
cached URL, or the stamp is missing (or 0), or the TTL has expired — the
absence of a cached value alone does NOT trigger a refresh.  Credits:
refresh iff there are no cached cast entries, or the stamp is missing, or
the TTL has expired — an external-id change alone does NOT trigger a
refresh (and a null doc never does).  Both return false immediately after
a refresh stamp, all else equal. -/
theorem shouldRefresh_characterization :
    (∀ (now ttl : Int) (m : Movie),
        shouldRefresh now m ttl = true ↔
          ((jsTrim m.imdbId ≠ []
              ∧ (extractImdbIdFromUrl (storedImdbUrl m) = []
                ∨ extractImdbIdFromUrl (storedImdbUrl m) ≠ jsTrim m.imdbId))
            ∨ ratingsTs m = 0 ∨ now - ratingsTs m > ttl * msPerDay))
    ∧ (∀ (now ttl : Int) (doc : Movie),
        shouldRefreshTmdbCredits now (some doc) ttl = true ↔
          (doc.casts = [] ∨ creditsTs doc = 0
            ∨ now - creditsTs doc > ttl * msPerDay))
    ∧ (∀ (now ttl : Int), shouldRefreshTmdbCredits now none ttl = false)
    ∧ (∀ (now ttl : Int) (m : Movie), 0 < ttl → 0 < now →
        m.externalRatingsUpdatedAt = some now →
        (jsTrim m.imdbId = []
          ∨ extractImdbIdFromUrl (storedImdbUrl m) = jsTrim m.imdbId) →
        shouldRefresh now m ttl = false)
    ∧ (∀ (now ttl : Int) (doc : Movie), 0 < ttl → 0 < now →
        doc.casts ≠ [] → doc.tmdbCreditsUpdatedAt = some now →
        shouldRefreshTmdbCredits now (some doc) ttl = false) := by
  have hms : (0 : Int) < msPerDay := by decide
  refine ⟨?_, ?_, ?_, ?_, ?_⟩
  · intro now ttl m
    unfold shouldRefresh
    by_cases h1 : (jsTrim m.imdbId).isEmpty = true
    · have h1b : jsTrim m.imdbId = [] := by simpa using h1
      rw [if_neg (by simp [h1])]
      by_cases h2 : ratingsTs m = 0
      · simp [h2, h1b]
      · simp [h2, h1b]
    · have h1b : jsTrim m.imdbId ≠ [] := by simpa using h1
      rw [if_pos (by simpa using h1)]
      by_cases h2 : extractImdbIdFromUrl (storedImdbUrl m) = []
      · have h2b : (extractImdbIdFromUrl (storedImdbUrl m)).isEmpty = true :=
          by simpa using h2
        rw [if_pos h2b]
        simp [h1b, h2]
      · rw [if_neg (by simpa using h2)]
        by_cases h3 : extractImdbIdFromUrl (storedImdbUrl m)
            = jsTrim m.imdbId
        · rw [if_neg (not_not_intro h3)]
          by_cases h4 : ratingsTs m = 0
          · simp [h1b, h2, h3, h4]
          · simp [h1b, h2, h3, h4]
        · rw [if_pos h3]
          simp [h1b, h2, h3]
  · intro now ttl doc
    unfold shouldRefreshTmdbCredits
    dsimp only
    by_cases h1 : doc.casts.isEmpty = true
    · rw [if_pos h1]
      simp [List.isEmpty_iff.mp h1]
    · rw [if_neg h1]
      have h1b : ¬ doc.casts = [] := by simpa using h1
      by_cases h2 : creditsTs doc = 0
      · simp [h1b, h2]
      · simp [h1b, h2]
  · intro now ttl
    rfl
  · intro now ttl m httl hnow hts hcase
    unfold shouldRefresh
    have htsv : ratingsTs m = now := by
      unfold ratingsTs
      rw [hts]
    rcases hcase with h1 | h2
    · rw [if_neg (by simp [h1])]
      rw [if_neg (by omega)]
      simp only [decide_eq_false_iff_not]
      intro hgt
      nlinarith [hms]
    · by_cases h1 : (jsTrim m.imdbId).isEmpty = true
      · rw [if_neg (by simp [h1])]
        rw [if_neg (by omega)]
        simp only [decide_eq_false_iff_not]
        intro hgt
        nlinarith [hms]
      · rw [if_pos (by simpa using h1)]
        have hne : ¬ (extractImdbIdFromUrl (storedImdbUrl m)).isEmpty = true := by
          rw [h2]
          simpa using h1
        rw [if_neg hne, if_neg (not_not_intro h2), if_neg (by omega)]
        simp only [decide_eq_false_iff_not]
        intro hgt
        nlinarith [hms]
  · intro now ttl doc httl hnow hcasts hts
    unfold shouldRefreshTmdbCredits
    dsimp only
    have htsv : creditsTs doc = now := by
      unfold creditsTs
      rw [hts]
    rw [if_neg (by simpa using hcasts), if_neg (by omega)]
    simp only [decide_eq_false_iff_not]
    intro hgt
    nlinarith [hms]

/-- Witness for `shouldRefresh_characterization`: freshly stamped records
are not refreshed. -/
theorem shouldRefresh_characterization_witness :
    shouldRefresh 1000
      { mkMovie [] none with externalRatingsUpdatedAt := some 1000 } 7 = false
    ∧ shouldRefreshTmdbCredits 1000
      (some { mkMovie [] none with
        casts := [[Char.ofNat 120]]
        tmdbCreditsUpdatedAt := some 1000 }) 30 = false :=
  ⟨shouldRefresh_characterization.2.2.2.1 1000 7
      { mkMovie [] none with externalRatingsUpdatedAt := some 1000 }
      (by decide) (by decide) rfl (Or.inl (by decide)),
   shouldRefresh_characterization.2.2.2.2 1000 30
      { mkMovie [] none with
        casts := [[Char.ofNat 120]]
        tmdbCreditsUpdatedAt := some 1000 }
      (by decide) (by decide) (by decide) rfl⟩

/-! ### Settling the failure-path claim -/

theorem firstOkFetch_none (provider : OmdbQuery → Except JsStr OmdbJson)
    (hfail : ∀ q, ∃ e, provider q = Except.error e) :
    ∀ l : List OmdbQuery, firstOkFetch provider l = none
  | [] => rfl
  | q :: qs => by
    obtain ⟨e, he⟩ := hfail q
    unfold firstOkFetch tryFetchJson
    rw [he]
    exact firstOkFetch_none provider hfail qs

theorem searchFallback_none (provider : OmdbQuery → Except JsStr OmdbJson)
    (hfail : ∀ q, ∃ e, provider q = Except.error e)
    (title : JsStr) (year : Option Int) (omdbType : JsStr) :
    ∀ l : List OmdbQuery,
      searchFallback provider title year omdbType l = none
  | [] => rfl
  | q :: qs => by
    obtain ⟨e, he⟩ := hfail q
    unfold searchFallback tryFetchJson
    rw [he]
    exact searchFallback_none provider hfail title year omdbType qs

/-- A ratings record holding a cached IMDb rating, with a set imdbId whose
cached URL is empty (so a refresh is attempted). -/
def ratingsCexDoc : Movie :=
  { mkMovie [Char.ofNat 97] none with
    imdbId := "tt0000001".toList
    externalRatings := some ⟨⟨some 8, some 100, []⟩, ⟨none, []⟩⟩
    externalRatingsUpdatedAt := some 0 }

/-- C9 counterexample: a failed refresh attempt (provider times out) does
NOT return the existing cached value unchanged when an imdbId is set — it
overwrites the cached IMDb rating/votes with null (storing the canonical
URL), destroying the previously cached rating 8. -/
theorem ensureRatings_failure_clears_cache_counterexample :
    (ensureMovieExternalRatings true 7
        (fun _ => Except.error "timeout".toList) 1000 ratingsCexDoc).1.externalRatings
      = some ⟨⟨none, none, "https://www.imdb.com/title/tt0000001/".toList⟩, ⟨none, []⟩⟩
    ∧ ratingsCexDoc.externalRatings
      = some ⟨⟨some 8, some 100, []⟩, ⟨none, []⟩⟩
    ∧ (ensureMovieExternalRatings true 7
        (fun _ => Except.error "timeout".toList) 1000 ratingsCexDoc).1.externalRatingsUpdatedAt
      = some 1000
    ∧ (ensureMovieExternalRatings true 7
        (fun _ => Except.error "timeout".toList) 1000 ratingsCexDoc).2
      = ⟨false, "omdb_not_found".toList⟩ := by
  refine ⟨by decide, by decide, by decide, by decide⟩

/-- C9 amended: a failed refresh attempt always stamps
`lastRefreshedAt = now` and reports an internal reason instead of raising
(every provider call is wrapped by `tryFetchJson`, whose catch converts
exceptions into values); the ratings cache keeps the existing cached value
only when no imdbId is set — with an imdbId set, the imdb rating/votes are
overwritten with null and a canonical URL is stored; the credits cache
never touches the cached casts/director on failure. -/
theorem ensure_failure_path (ttl now : Int)
    (provider : OmdbQuery → Except JsStr OmdbJson) (m : Movie)
    (fr : TmdbFetchRes) (mc : Movie) (force : Bool) (castLimit : Nat)
    (hsr : shouldRefresh now m ttl = true)
    (hid : ¬ (m.name.isEmpty ∧ (jsTrim m.imdbId).isEmpty))
    (hfail : ∀ q, ∃ e, provider q = Except.error e)
    (hsrc : force = true ∨ shouldRefreshTmdbCredits now (some mc) ttl = true)
    (hnf : fr.found = false) :
    ((ensureMovieExternalRatings true ttl provider now m).1.externalRatingsUpdatedAt
        = some now
      ∧ (ensureMovieExternalRatings true ttl provider now m).2
        = ⟨false, "omdb_not_found".toList⟩
      ∧ (jsTrim m.imdbId = [] →
          (ensureMovieExternalRatings true ttl provider now m).1.externalRatings
            = m.externalRatings)
      ∧ (jsTrim m.imdbId ≠ [] →
          (ensureMovieExternalRatings true ttl provider now m).1.externalRatings
            = some ⟨⟨none, none, imdbUrlFromId (jsTrim m.imdbId)⟩,
                ⟨none, rottenUrlFromTitle m.name⟩⟩)
      ∧ (ensureMovieExternalRatings true ttl provider now m).1.casts = m.casts)
    ∧ ((ensureMovieTmdbCredits true ttl fr now mc force castLimit).1.tmdbCreditsUpdatedAt
        = some now
      ∧ (ensureMovieTmdbCredits true ttl fr now mc force castLimit).1.casts
        = mc.casts
      ∧ (ensureMovieTmdbCredits true ttl fr now mc force castLimit).1.director
        = mc.director
      ∧ (ensureMovieTmdbCredits true ttl fr now mc force castLimit).2.updated
        = false) := by
  constructor
  · have hratings : ensureMovieExternalRatings true ttl provider now m
        = (if ¬ (jsTrim m.imdbId).isEmpty then
            ({ { m with externalRatingsUpdatedAt := some now } with
                externalRatings := some ⟨⟨none, none,
                  imdbUrlFromId (jsTrim m.imdbId)⟩,
                  ⟨none, rottenUrlFromTitle m.name⟩⟩ },
             ⟨false, "omdb_not_found".toList⟩)
          else ({ m with externalRatingsUpdatedAt := some now },
             ⟨false, "omdb_not_found".toList⟩)) := by
      unfold ensureMovieExternalRatings
      rw [if_neg (by simp), if_neg (not_not_intro hsr), if_neg hid]
      simp only [firstOkFetch_none provider hfail,
        searchFallback_none provider hfail]
      rcases Decidable.em ((jsTrim m.imdbId).isEmpty = true) with h | h
      · simp [h]
      · simp [h]
    rw [hratings]
    by_cases h : (jsTrim m.imdbId).isEmpty = true
    · rw [if_neg (by simpa using h)]
      have hid0 : jsTrim m.imdbId = [] := by simpa using h
      exact ⟨rfl, rfl, fun _ => rfl, fun hc => absurd hid0 hc, rfl⟩
    · rw [if_pos (by simpa using h)]
      have hid1 : jsTrim m.imdbId ≠ [] := by simpa using h
      exact ⟨rfl, rfl, fun hc => absurd hc hid1, fun _ => rfl, rfl⟩
  · have hgate : ¬ (¬ force = true
        ∧ ¬ shouldRefreshTmdbCredits now (some mc) ttl = true) := by
      rcases hsrc with h | h
      · intro hc
        exact hc.1 h
      · intro hc
        exact hc.2 h
    unfold ensureMovieTmdbCredits
    rw [if_neg (by simp), if_neg hgate, if_pos (Or.inl (by simp [hnf]))]
    exact ⟨rfl, rfl, rfl, rfl⟩

/-- Witness for `ensure_failure_path`: a timing-out provider and a
not-found credits fetch on concrete documents. -/
theorem ensure_failure_path_witness :
    ((ensureMovieExternalRatings true 7
        (fun _ => Except.error "timeout".toList) 5
        { mkMovie [] none with name := [Char.ofNat 97] }).1.externalRatingsUpdatedAt
        = some 5
      ∧ (ensureMovieExternalRatings true 7
        (fun _ => Except.error "timeout".toList) 5
        { mkMovie [] none with name := [Char.ofNat 97] }).2
        = ⟨false, "omdb_not_found".toList⟩
      ∧ (jsTrim ({ mkMovie [] none with name := [Char.ofNat 97] } : Movie).imdbId = [] →
          (ensureMovieExternalRatings true 7
            (fun _ => Except.error "timeout".toList) 5
            { mkMovie [] none with name := [Char.ofNat 97] }).1.externalRatings
            = ({ mkMovie [] none with name := [Char.ofNat 97] } : Movie).externalRatings)
      ∧ (jsTrim ({ mkMovie [] none with name := [Char.ofNat 97] } : Movie).imdbId ≠ [] →
          (ensureMovieExternalRatings true 7
            (fun _ => Except.error "timeout".toList) 5
            { mkMovie [] none with name := [Char.ofNat 97] }).1.externalRatings
            = some ⟨⟨none, none, imdbUrlFromId
                (jsTrim ({ mkMovie [] none with name := [Char.ofNat 97] } : Movie).imdbId)⟩,
                ⟨none, rottenUrlFromTitle
                  ({ mkMovie [] none with name := [Char.ofNat 97] } : Movie).name⟩⟩)
      ∧ (ensureMovieExternalRatings true 7
        (fun _ => Except.error "timeout".toList) 5
        { mkMovie [] none with name := [Char.ofNat 97] }).1.casts
        = ({ mkMovie [] none with name := [Char.ofNat 97] } : Movie).casts)
    ∧ ((ensureMovieTmdbCredits true 30 ⟨false, none, [], [], [], "not_found".toList⟩
        5 (mkMovie [] none) false 20).1.tmdbCreditsUpdatedAt = some 5
      ∧ (ensureMovieTmdbCredits true 30 ⟨false, none, [], [], [], "not_found".toList⟩
        5 (mkMovie [] none) false 20).1.casts = (mkMovie [] none).casts
      ∧ (ensureMovieTmdbCredits true 30 ⟨false, none, [], [], [], "not_found".toList⟩
        5 (mkMovie [] none) false 20).1.director = (mkMovie [] none).director
      ∧ (ensureMovieTmdbCredits true 30 ⟨false, none, [], [], [], "not_found".toList⟩
        5 (mkMovie [] none) false 20).2.updated = false) :=
  ensure_failure_path 7 5 (fun _ => Except.error "timeout".toList)
    { mkMovie [] none with name := [Char.ofNat 97] }
    ⟨false, none, [], [], [], "not_found".toList⟩ (mkMovie [] none) false 20
    (by decide) (by decide) (fun q => ⟨"timeout".toList, rfl⟩)
    (Or.inr (by decide)) rfl

/-! ### The public detail-view read (`getMovieById`) -/

def isHexDigit (c : Char) : Bool :=
  isAsciiDigit c || decide (96 < c.toNat ∧ c.toNat < 103)
    || decide (64 < c.toNat ∧ c.toNat < 71)

/-- `mongoose.Types.ObjectId.isValid` for the 24-hex-character form (the
12-byte-buffer form has no JsStr counterpart here). -/
def isValidObjectId (s : JsStr) : Bool := decide (s.length = 24) && s.all isHexDigit

/-- `publicVisibilityFilter = { isPublished: { $ne: false } }`. -/
def publicVisibility (m : Movie) : Bool := decide (m.isPublished ≠ some false)

/-- `findMovieByIdOrSlug(param, extraFilter)`: try as ObjectId, fall back
to slug. -/
def findMovieByIdOrSlug (db : List Movie) (param : JsStr)
    (pf : Movie → Bool) : Option Movie :=
  if param.isEmpty then none
  else
    match (if isValidObjectId param then
        db.find? (fun m => decide (m.id = param) && pf m)
      else none) with
    | some m => some m
    | none => db.find? (fun m => decide (m.slug = param) && pf m)

/-- `movie.save()`: persist the (possibly modified) document back by id. -/
def saveDoc (db : List Movie) (doc : Movie) : List Movie :=
  db.map (fun x => if x.id = doc.id then doc else x)

/-- `getMovieById` (public detail view): find by id/slug under the public
visibility filter, backfill a missing slug, best-effort refresh both
enrichment caches, then increment `viewCount` and save. -/
def getMovieById (db : List Movie) (param : JsStr) (hasOmdbKey : Bool)
    (ratingsTtl : Int) (provider : OmdbQuery → Except JsStr OmdbJson)
    (hasTmdbKey : Bool) (creditsTtl : Int) (tmdbRes : TmdbFetchRes)
    (now : Int) : Except JsStr (List Movie × Movie) :=
  match findMovieByIdOrSlug db param publicVisibility with
  | none => .error "Movie not found".toList
  | some movie =>
    let newSlug := generateUniqueSlug (db.map (fun x => (x.id, x.slug)))
      movie.name movie.year (some movie.id)
    let m1 :=
      if movie.slug.isEmpty then { movie with slug := newSlug } else movie
    let m2 := (ensureMovieExternalRatings hasOmdbKey ratingsTtl provider
      now m1).1
    let m3 := (ensureMovieTmdbCredits hasTmdbKey creditsTtl tmdbRes now m2
      false 20).1
    let m4 := { m3 with viewCount := some (m3.viewCount.getD 0 + 1) }
    .ok (saveDoc db m4, m4)

/-- The ratings refresh never touches `viewCount` or `_id`. -/
theorem ensureRatings_preserves (hasKey : Bool) (ttl : Int)
    (provider : OmdbQuery → Except JsStr OmdbJson) (now : Int) (m : Movie) :
    (ensureMovieExternalRatings hasKey ttl provider now m).1.viewCount
        = m.viewCount
    ∧ (ensureMovieExternalRatings hasKey ttl provider now m).1.id = m.id := by
  unfold ensureMovieExternalRatings
  dsimp only
  repeat' split
  all_goals exact ⟨rfl, rfl⟩

/-- The credits refresh never touches `viewCount` or `_id`. -/
theorem ensureCredits_preserves (hasKey : Bool) (ttl : Int)
    (fr : TmdbFetchRes) (now : Int) (m : Movie) (force : Bool) (cl : Nat) :
    (ensureMovieTmdbCredits hasKey ttl fr now m force cl).1.viewCount
        = m.viewCount
    ∧ (ensureMovieTmdbCredits hasKey ttl fr now m force cl).1.id = m.id := by
  unfold ensureMovieTmdbCredits
  dsimp only
  repeat' split
  all_goals exact ⟨rfl, rfl⟩

/-- C10: every successful public detail-view read returns a document whose
viewCount is the found document's viewCount (missing read as 0) plus
exactly 1, and persists it into the store (`save`), even when the caches
are fresh and the slug already exists; in particular the read is never
side-effect free: the resulting store differs from the input store. -/
theorem getMovieById_increments_and_saves (db : List Movie) (param : JsStr)
    (hasOmdbKey : Bool) (ratingsTtl : Int)
    (provider : OmdbQuery → Except JsStr OmdbJson) (hasTmdbKey : Bool)
    (creditsTtl : Int) (tmdbRes : TmdbFetchRes) (now : Int) (m0 : Movie)
    (hfound : findMovieByIdOrSlug db param publicVisibility = some m0)
    (hmem : m0 ∈ db) :
    ∃ doc, getMovieById db param hasOmdbKey ratingsTtl provider hasTmdbKey
        creditsTtl tmdbRes now = .ok (saveDoc db doc, doc)
      ∧ doc.viewCount = some (m0.viewCount.getD 0 + 1)
      ∧ doc.id = m0.id
      ∧ saveDoc db doc ≠ db := by
  have hm1p : ∀ m1 : Movie, m1.viewCount = m0.viewCount → m1.id = m0.id →
      ((ensureMovieTmdbCredits hasTmdbKey creditsTtl tmdbRes now
        (ensureMovieExternalRatings hasOmdbKey ratingsTtl provider now
          m1).1 false 20).1.viewCount = m0.viewCount
      ∧ (ensureMovieTmdbCredits hasTmdbKey creditsTtl tmdbRes now
        (ensureMovieExternalRatings hasOmdbKey ratingsTtl provider now
          m1).1 false 20).1.id = m0.id) := by
    intro m1 hv hi
    obtain ⟨hv2, hi2⟩ := ensureRatings_preserves hasOmdbKey ratingsTtl
      provider now m1
    obtain ⟨hv3, hi3⟩ := ensureCredits_preserves hasTmdbKey creditsTtl
      tmdbRes now (ensureMovieExternalRatings hasOmdbKey ratingsTtl
        provider now m1).1 false 20
    exact ⟨hv3.trans (hv2.trans hv), hi3.trans (hi2.trans hi)⟩
  unfold getMovieById
  rw [hfound]
  set m1 := (if m0.slug.isEmpty then
      { m0 with slug := (generateUniqueSlug (db.map (fun x => (x.id, x.slug)))
        m0.name m0.year (some m0.id)) }
    else m0) with hm1
  have hm1v : m1.viewCount = m0.viewCount := by
    rw [hm1]
    split <;> rfl
  have hm1i : m1.id = m0.id := by
    rw [hm1]
    split <;> rfl
  obtain ⟨hv, hi⟩ := hm1p m1 hm1v hm1i
  set m3 := (ensureMovieTmdbCredits hasTmdbKey creditsTtl tmdbRes now
    (ensureMovieExternalRatings hasOmdbKey ratingsTtl provider now
      m1).1 false 20).1 with hm3
  refine ⟨{ m3 with viewCount := some (m3.viewCount.getD 0 + 1) },
    rfl, ?_, ?_, ?_⟩
  · rw [show ({ m3 with viewCount := some (m3.viewCount.getD 0 + 1) }
        : Movie).viewCount = some (m3.viewCount.getD 0 + 1) from rfl, hv]
  · exact hi
  · intro hc
    obtain ⟨i, hlt, hgi⟩ := List.mem_iff_getElem.mp hmem
    have h2 : (saveDoc db
        { m3 with viewCount := some (m3.viewCount.getD 0 + 1) })[i]?
        = db[i]? := by rw [hc]
    simp only [saveDoc, List.getElem?_map, List.getElem?_eq_getElem hlt,
      hgi, Option.map_some', Option.some.injEq] at h2
    have hDid : m0.id = ({ m3 with
        viewCount := some (m3.viewCount.getD 0 + 1) } : Movie).id := by
      rw [show ({ m3 with
          viewCount := some (m3.viewCount.getD 0 + 1) } : Movie).id
        = m3.id from rfl, hi]
    split at h2
    case isFalse hnot => exact hnot hDid
    case isTrue =>
      have hDv := congrArg Movie.viewCount h2
      dsimp only at hDv
      rw [hv] at hDv
      rcases hm0v : m0.viewCount with _ | n
      · rw [hm0v] at hDv
        simp at hDv
      · rw [hm0v] at hDv
        have hn := Option.some.inj hDv
        simp at hn

/-- Concrete store for the detail-view instance: one published movie with a
nonempty slug and fresh enrichment stamps (so neither cache refreshes and
no slug backfill happens, yet the read still writes). -/
def w10doc : Movie :=
  { mkMovie [Char.ofNat 97] (some 1) with
    slug := [Char.ofNat 115]
    externalRatingsUpdatedAt := some 0
    tmdbCreditsUpdatedAt := some 0 }

theorem getMovieById_increments_and_saves_witness :
    ∃ doc, getMovieById [w10doc] [Char.ofNat 115] true 7
        (fun _ => Except.error []) true 30 ⟨false, none, [], [], [], []⟩ 0
        = .ok (saveDoc [w10doc] doc, doc)
      ∧ doc.viewCount = some (w10doc.viewCount.getD 0 + 1)
      ∧ doc.id = w10doc.id
      ∧ saveDoc [w10doc] doc ≠ [w10doc] :=
  getMovieById_increments_and_saves [w10doc] [Char.ofNat 115] true 7
    (fun _ => Except.error []) true 30 ⟨false, none, [], [], [], []⟩ 0
    w10doc (by decide) (by decide)

end MovieFrost
